import Mathlib

/-!
Verification of the Itanium C++ ABI demangler (`src/ast.rs`).

This file gives a shallow embedding of the parts of the demangler that the
verified claims are about: the input cursor and number scanners, the
`<substitution>` / `<nested-name>` / `<prefix>` / `<expression>` parsers,
and the renderer (demangle context, cv-qualifier printing, argument scope
stack, mark-bit cycle guard, `Encoding` / `ExprPrimary` rendering).

Conventions used throughout:

* The input is a list of `Char`s together with the absolute index of its
  first byte, mirroring the byte-slice cursor.  The mangled-name grammar is
  ASCII, so bytes and characters coincide on every input the code inspects.
* Rust `Result<T, error::Error>` becomes `Except Error T`.
* Parsers that mutate the substitution table thread it explicitly and
  return the updated table even on failure (matching `&mut` semantics).
* Recursive-descent loops and recursion are modelled with an explicit fuel
  parameter; every concrete run in this file uses ample fuel, and the
  source recursion consumes input so real runs are in bounds.
* `usize` / `isize` become `Nat` / `Int`; the `isize` overflow boundary of
  the 64-bit target is written out explicitly.
-/

namespace CppDemangle

/-- Modelled from the spec: the closed set of demangling error kinds
(spec section 7).  The error enum itself lives in `error.rs`, which is not
part of `src/`. -/
inductive Error where
  | UnexpectedEnd
  | UnexpectedText
  | Overflow
  | BadBackReference
  | BadTemplateArgReference
  | BadFunctionArgReference
  | RecursiveDemangling
deriving DecidableEq, Repr

/-- Result type of a parse step: `Result<T>` from the source. -/
abbrev PResult (α : Type) := Except Error α

/-- Modelled from the spec: the position-tracked input cursor of
spec section 4.A (`IndexStr` lives in `index_str.rs`, outside `src/`).
`chars` is the not-yet-consumed input; `idx` is the absolute index of its
first byte in the original input. -/
structure IndexStr where
  chars : List Char
  idx : Nat
deriving DecidableEq, Repr

namespace IndexStr

/-- `peek`: the first remaining byte, if any. -/
def peek (s : IndexStr) : Option Char := s.chars.head?

/-- `is_empty`. -/
def isEmpty (s : IndexStr) : Bool := s.chars.isEmpty

/-- `len`: number of remaining bytes. -/
def len (s : IndexStr) : Nat := s.chars.length

/-- `index`: absolute index of the first remaining byte. -/
def index (s : IndexStr) : Nat := s.idx

/-- `range_from(n..)`: advance the cursor by `n` bytes. -/
def rangeFrom (s : IndexStr) (n : Nat) : IndexStr :=
  ⟨s.chars.drop n, s.idx + n⟩

/-- `split_at(n)`: the first `n` bytes as a cursor of their own, together
with the advanced cursor (callers guarantee `n ≤ len`). -/
def splitAt (s : IndexStr) (n : Nat) : IndexStr × IndexStr :=
  (⟨s.chars.take n, s.idx⟩, s.rangeFrom n)

/-- `try_split_at(n)`: `None` when fewer than `n` bytes remain. -/
def trySplitAt (s : IndexStr) (n : Nat) : Option (IndexStr × IndexStr) :=
  if n ≤ s.chars.length then some (s.splitAt n) else none

end IndexStr

/-- `consume(expected, input)` (src/ast.rs `consume`): succeed iff the
input starts with exactly `expected`; `UnexpectedText` on a mismatch,
`UnexpectedEnd` when the input is too short. -/
def consume (expected : List Char) (input : IndexStr) : PResult IndexStr :=
  match input.trySplitAt expected.length with
  | some (head, tail) =>
    if head.chars = expected then .ok tail else .error .UnexpectedText
  | none => .error .UnexpectedEnd

/-- ASCII decimal digit test. -/
def isDigit10 (c : Char) : Bool := '0' ≤ c && c ≤ '9'

/-- ASCII uppercase letter test. -/
def isUpperAZ (c : Char) : Bool := 'A' ≤ c && c ≤ 'Z'

/-- Numeric value of an alphanumeric character, base-36 style
(`'0'-'9'` ↦ 0-9, `'A'-'Z'` ↦ 10-35); 36 (never a valid digit) otherwise.
Lowercase letters never reach a value computation in `parse_number`
because its digit predicate excludes them. -/
def digitVal (c : Char) : Nat :=
  if isDigit10 c then c.toNat - '0'.toNat
  else if isUpperAZ c then c.toNat - 'A'.toNat + 10
  else 36

/-- The digit predicate of `parse_number`
(`c.is_digit(base) && (c.is_numeric() || c.is_uppercase())`): on the
characters for which Rust's `is_digit(base)` can hold (ASCII
alphanumerics) `is_numeric` holds exactly for `0-9` and `is_uppercase`
exactly for `A-Z`, so the conjunction accepts exactly ASCII digits and
uppercase letters whose value is below `base`. -/
def numChar (base : Nat) (c : Char) : Bool :=
  (isDigit10 c || isUpperAZ c) && digitVal c < base

/-- Value of a digit string, most significant digit first. -/
def digitsVal (base : Nat) (ds : List Char) : Nat :=
  ds.foldl (fun a c => a * base + digitVal c) 0

/-- `isize::MAX` of the 64-bit target: the largest value
`isize::from_str_radix` accepts for a (sign-free) digit string. -/
def wordMax : Nat := 2 ^ 63 - 1

/-- `parse_number(base, allow_signed, input)` (src/ast.rs): an optional
leading `n` marks negation when `allow_signed`; then one or more digits
(`UnexpectedText` when none), no leading zero unless the value is exactly
`0` (`UnexpectedText` otherwise), and the digit run must fit `isize`
(`Overflow` otherwise). -/
def parse_number (base : Nat) (allow_signed : Bool) (input : IndexStr) :
    PResult (Int × IndexStr) :=
  if input.chars.isEmpty then .error .UnexpectedEnd
  else
    let neg : Bool := allow_signed && input.peek = some 'n'
    let input1 := if neg then input.rangeFrom 1 else input
    if neg && input1.chars.isEmpty then .error .UnexpectedEnd
    else
      let digits := input1.chars.takeWhile (numChar base)
      if digits.length = 0 then .error .UnexpectedText
      else if 1 < digits.length && digits.head? = some '0' then
        .error .UnexpectedText
      else
        let v := digitsVal base digits
        if wordMax < v then .error .Overflow
        else
          .ok (if neg then -(v : Int) else (v : Int),
               input1.rangeFrom digits.length)

/-- `Parse for Number` (src/ast.rs line 1446): decimal, signed. -/
def numberParse (input : IndexStr) : PResult (Int × IndexStr) :=
  parse_number 10 true input

/-- `Parse for SeqId` (src/ast.rs line 1464): base-36, unsigned; the
parsed value is returned as the `usize` payload of `SeqId`. -/
def seqIdParse (input : IndexStr) : PResult (Nat × IndexStr) :=
  (parse_number 36 false input).map (fun p => (p.1.toNat, p.2))

/-- Rust `char::is_digit(36)`: ASCII alphanumeric, case-insensitive.
(Used by `Identifier::parse`, which has no uppercase restriction.) -/
def isDigit36 (c : Char) : Bool :=
  isDigit10 c || ('a' ≤ c && c ≤ 'z') || isUpperAZ c

/-- The `<identifier>` pseudo-terminal: a `(start, end)` byte range into
the original input (src/ast.rs line 1390). -/
structure Identifier where
  start : Nat
  stop : Nat
deriving DecidableEq, Repr

/-- `Identifier::parse` (src/ast.rs line 1395): one or more bytes drawn
from `_` and the base-36 alphabet, recorded as a byte range. -/
def identifierParse (input : IndexStr) : PResult (Identifier × IndexStr) :=
  if input.chars.isEmpty then .error .UnexpectedEnd
  else
    let n := (input.chars.takeWhile (fun c => c = '_' || isDigit36 c)).length
    if n = 0 then .error .UnexpectedText
    else
      let tail := input.rangeFrom n
      .ok (⟨input.index, tail.index⟩, tail)

/-- `SourceName` wraps an `Identifier` (src/ast.rs line 1331). -/
structure SourceName where
  ident : Identifier
deriving DecidableEq, Repr

/-- `SourceName::parse` (src/ast.rs line 1333): a positive decimal length
followed by exactly that many identifier bytes. -/
def sourceNameParse (input : IndexStr) : PResult (SourceName × IndexStr) :=
  match parse_number 10 false input with
  | .error e => .error e
  | .ok (source_name_len, input) =>
    if source_name_len = 0 then .error .UnexpectedText
    else
      match input.trySplitAt source_name_len.toNat with
      | none => .error .UnexpectedEnd
      | some (head, tail) =>
        match identifierParse head with
        | .error e => .error e
        | .ok (identifier, empty) =>
          if !empty.isEmpty then .error .UnexpectedText
          else .ok (⟨identifier⟩, tail)

/-- `SourceName::starts_with` (src/ast.rs line 1360). -/
def sourceNameStartsWith (c : Char) : Bool :=
  c = '0' || ('0' ≤ c && c ≤ '9')

section Vocabulary

variable {α : Type}

/-- Worker for the `Parse` impl generated by `define_vocabulary!`
(src/ast.rs line 501): try each `(mangled, variant)` pair in order; a
tag that does not fit in the remaining input contributes to the
`found_prefix` flag when the whole input is a proper nonempty prefix of
it; at the end, fail with `UnexpectedEnd` when the input was empty or a
prefix of some tag, `UnexpectedText` otherwise. -/
def vocabParseGo (input : IndexStr) :
    List (List Char × α) → Bool → PResult (α × IndexStr)
  | [], found =>
    if input.isEmpty || found then .error .UnexpectedEnd
    else .error .UnexpectedText
  | (tag, v) :: rest, found =>
    match input.trySplitAt tag.length with
    | some (head, tail) =>
      if head.chars = tag then .ok (v, tail)
      else vocabParseGo input rest found
    | none =>
      vocabParseGo input rest
        (found ||
          (0 < input.len && input.len < tag.length &&
            input.chars = tag.take input.len))

/-- The `Parse` impl generated by `define_vocabulary!`. -/
def vocabParse (vocab : List (List Char × α)) (input : IndexStr) :
    PResult (α × IndexStr) :=
  vocabParseGo input vocab false

/-- The `StartsWith` impl generated by `define_vocabulary!`: does some
tag start with this byte? -/
def vocabStartsWith (vocab : List (List Char × α)) (c : Char) : Bool :=
  vocab.any (fun p => p.1.head? = some c)

end Vocabulary

/-- The `<ref-qualifier>` production (src/ast.rs line 2089). -/
inductive RefQualifier where
  | LValueRef
  | RValueRef
deriving DecidableEq, Repr

/-- The `define_vocabulary!` table for `RefQualifier`. -/
def refQualifierVocab : List (List Char × RefQualifier) :=
  [(['R'], .LValueRef), (['O'], .RValueRef)]

/-- `RefQualifier::parse`. -/
def refQualifierParse (input : IndexStr) : PResult (RefQualifier × IndexStr) :=
  vocabParse refQualifierVocab input

/-- The well-known `<substitution>` components (src/ast.rs line 4584). -/
inductive WellKnownComponent where
  | Std
  | StdAllocator
  | StdString1
  | StdString2
  | StdIstream
  | StdOstream
  | StdIostream
deriving DecidableEq, Repr

/-- The `define_vocabulary!` table for `WellKnownComponent`, in source
order. -/
def wellKnownVocab : List (List Char × WellKnownComponent) :=
  [(['S', 't'], .Std),
   (['S', 'a'], .StdAllocator),
   (['S', 'b'], .StdString1),
   (['S', 's'], .StdString2),
   (['S', 'i'], .StdIstream),
   (['S', 'o'], .StdOstream),
   (['S', 'd'], .StdIostream)]

/-- `WellKnownComponent::parse`. -/
def wellKnownParse (input : IndexStr) :
    PResult (WellKnownComponent × IndexStr) :=
  vocabParse wellKnownVocab input

/-- The `<operator-name>` production (src/ast.rs line 1482). -/
inductive OperatorName where
  | New | NewArray | Delete | DeleteArray
  | UnaryPlus | Neg | AddressOf | Deref | BitNot
  | Add | Sub | Mul | Div | Rem | BitAnd | BitOr | BitXor
  | Assign | AddAssign | SubAssign | MulAssign | DivAssign | RemAssign
  | BitAndAssign | BitOrAssign | BitXorAssign
  | Shl | Shr | ShlAssign | ShrAssign
  | Eq | Ne | Less | Greater | LessEq | GreaterEq
  | Not | LogicalAnd | LogicalOr
  | PostInc | PostDec | Comma
  | DerefMemberPtr | DerefMember | Call | Index | Question
deriving DecidableEq, Repr

/-- The `define_vocabulary!` table for `OperatorName`, in source order. -/
def operatorNameVocab : List (List Char × OperatorName) :=
  [(['n', 'w'], .New), (['n', 'a'], .NewArray),
   (['d', 'l'], .Delete), (['d', 'a'], .DeleteArray),
   (['p', 's'], .UnaryPlus), (['n', 'g'], .Neg),
   (['a', 'd'], .AddressOf), (['d', 'e'], .Deref),
   (['c', 'o'], .BitNot),
   (['p', 'l'], .Add), (['m', 'i'], .Sub), (['m', 'l'], .Mul),
   (['d', 'v'], .Div), (['r', 'm'], .Rem),
   (['a', 'n'], .BitAnd), (['o', 'r'], .BitOr), (['e', 'o'], .BitXor),
   (['a', 'S'], .Assign), (['p', 'L'], .AddAssign),
   (['m', 'I'], .SubAssign), (['m', 'L'], .MulAssign),
   (['d', 'V'], .DivAssign), (['r', 'M'], .RemAssign),
   (['a', 'N'], .BitAndAssign), (['o', 'R'], .BitOrAssign),
   (['e', 'O'], .BitXorAssign),
   (['l', 's'], .Shl), (['r', 's'], .Shr),
   (['l', 'S'], .ShlAssign), (['r', 'S'], .ShrAssign),
   (['e', 'q'], .Eq), (['n', 'e'], .Ne),
   (['l', 't'], .Less), (['g', 't'], .Greater),
   (['l', 'e'], .LessEq), (['g', 'e'], .GreaterEq),
   (['n', 't'], .Not),
   (['a', 'a'], .LogicalAnd), (['o', 'o'], .LogicalOr),
   (['p', 'p'], .PostInc), (['m', 'm'], .PostDec),
   (['c', 'm'], .Comma),
   (['p', 'm'], .DerefMemberPtr), (['p', 't'], .DerefMember),
   (['c', 'l'], .Call), (['i', 'x'], .Index), (['q', 'u'], .Question)]

/-- `OperatorName::parse`. -/
def operatorNameParse (input : IndexStr) : PResult (OperatorName × IndexStr) :=
  vocabParse operatorNameVocab input

/-- `OperatorName::starts_with`. -/
def operatorNameStartsWith (c : Char) : Bool :=
  vocabStartsWith operatorNameVocab c

/-- The `<ctor-dtor-name>` production (src/ast.rs line 1643). -/
inductive CtorDtorName where
  | CompleteConstructor
  | BaseConstructor
  | CompleteAllocatingConstructor
  | DeletingDestructor
  | CompleteDestructor
  | BaseDestructor
deriving DecidableEq, Repr

/-- The `define_vocabulary!` table for `CtorDtorName`, in source order. -/
def ctorDtorVocab : List (List Char × CtorDtorName) :=
  [(['C', '1'], .CompleteConstructor),
   (['C', '2'], .BaseConstructor),
   (['C', '3'], .CompleteAllocatingConstructor),
   (['D', '0'], .DeletingDestructor),
   (['D', '1'], .CompleteDestructor),
   (['D', '2'], .BaseDestructor)]

/-- `CtorDtorName::parse`. -/
def ctorDtorParse (input : IndexStr) : PResult (CtorDtorName × IndexStr) :=
  vocabParse ctorDtorVocab input

/-- `CtorDtorName::starts_with`. -/
def ctorDtorStartsWith (c : Char) : Bool :=
  vocabStartsWith ctorDtorVocab c

/-- The standard `<builtin-type>` variants (src/ast.rs line 2131). -/
inductive StandardBuiltinType where
  | Void | Wchar | Bool | Char | SignedChar | UnsignedChar
  | Short | UnsignedShort | Int | UnsignedInt | Long | UnsignedLong
  | LongLong | UnsignedLongLong | Int128 | Uint128
  | Float | Double | LongDouble | Float128 | Ellipsis
  | DecimalFloat64 | DecimalFloat128 | DecimalFloat32 | DecimalFloat16
  | Char32 | Char16 | Auto | Decltype | Nullptr
deriving DecidableEq, Repr

/-- The `<builtin-type>` production (src/ast.rs line 2167): standard or
vendor extension. -/
inductive BuiltinType where
  | Standard : StandardBuiltinType → BuiltinType
  | Extension : SourceName → BuiltinType
deriving DecidableEq, Repr

/-- The `<unnamed-type-name>` production (src/ast.rs line 2484). -/
structure UnnamedTypeName where
  num : Option Nat
deriving DecidableEq, Repr

/-- `UnnamedTypeName::parse` (src/ast.rs line 2486):
`Ut [ <nonnegative number> ] _`. -/
def unnamedTypeNameParse (input : IndexStr) :
    PResult (UnnamedTypeName × IndexStr) :=
  match consume ['U', 't'] input with
  | .error e => .error e
  | .ok input =>
    let (number, input) :=
      match parse_number 10 false input with
      | .ok (number, input) => (some number.toNat, input)
      | .error _ => (none, input)
    match consume ['_'] input with
    | .error e => .error e
    | .ok input => .ok (⟨number⟩, input)

/-- `UnnamedTypeName::starts_with` (src/ast.rs line 2502). -/
def unnamedTypeNameStartsWith (c : Char) : Bool := c = 'U'

/-- The `<unqualified-name>` production (src/ast.rs line 1264). -/
inductive UnqualifiedName where
  | Operator : OperatorName → UnqualifiedName
  | CtorDtor : CtorDtorName → UnqualifiedName
  | Source : SourceName → UnqualifiedName
  | UnnamedType : UnnamedTypeName → UnqualifiedName
deriving DecidableEq, Repr

/-- `UnqualifiedName::parse` (src/ast.rs line 1275): operator name, then
ctor/dtor name, then source name, then unnamed type name. -/
def unqualifiedNameParse (input : IndexStr) :
    PResult (UnqualifiedName × IndexStr) :=
  match operatorNameParse input with
  | .ok (op, tail) => .ok (.Operator op, tail)
  | .error _ =>
    match ctorDtorParse input with
    | .ok (cd, tail) => .ok (.CtorDtor cd, tail)
    | .error _ =>
      match sourceNameParse input with
      | .ok (source, tail) => .ok (.Source source, tail)
      | .error _ =>
        (unnamedTypeNameParse input).map (fun p => (.UnnamedType p.1, p.2))

/-- `UnqualifiedName::starts_with` (src/ast.rs line 1298). -/
def unqualifiedNameStartsWith (c : Char) : Bool :=
  operatorNameStartsWith c || ctorDtorStartsWith c ||
  sourceNameStartsWith c || unnamedTypeNameStartsWith c

/-- The `<CV-qualifiers>` production (src/ast.rs line 2012). -/
structure CvQualifiers where
  restrict : Bool
  volatile : Bool
  const_ : Bool
deriving DecidableEq, Repr

/-- The `Default` for `CvQualifiers`: all `false`. -/
def CvQualifiers.default : CvQualifiers := ⟨false, false, false⟩

/-- `CvQualifiers::parse` (src/ast.rs line 2021): optionally consume `r`,
then optionally `V`, then optionally `K`; the body ends in
`Ok((qualifiers, tail))` and has no error return. -/
def cvQualifiersParse (input : IndexStr) : PResult (CvQualifiers × IndexStr) :=
  let (restrict, tail) :=
    match consume ['r'] input with
    | .ok tail => (true, tail)
    | .error _ => (false, input)
  let (volatile, tail) :=
    match consume ['V'] tail with
    | .ok tail2 => (true, tail2)
    | .error _ => (false, tail)
  let (const_, tail) :=
    match consume ['K'] tail with
    | .ok tail2 => (true, tail2)
    | .error _ => (false, tail)
  .ok (⟨restrict, volatile, const_⟩, tail)

/-- The `<template-param>` production (src/ast.rs line 2661): its payload
is the zero-based parameter index. -/
structure TemplateParam where
  paramIdx : Nat
deriving DecidableEq, Repr

/-- `TemplateParam::parse` (src/ast.rs line 2663): `T_` is index 0,
`T <number> _` is index `number + 1`. -/
def templateParamParse (input : IndexStr) : PResult (TemplateParam × IndexStr) :=
  match consume ['T'] input with
  | .error e => .error e
  | .ok input =>
    let (number, input) :=
      match parse_number 10 false input with
      | .ok (number, input) => ((number + 1).toNat, input)
      | .error _ => (0, input)
    match consume ['_'] input with
    | .error e => .error e
    | .ok input => .ok (⟨number⟩, input)

/-- The `<function-param>` production (src/ast.rs line 2761): a scope
depth, top-level cv-qualifiers, and an optional parameter number. -/
structure FunctionParam where
  scope : Nat
  cv : CvQualifiers
  param : Option Nat
deriving DecidableEq, Repr

/-- `FunctionParam::parse` (src/ast.rs line 2763):
`f [L <number>] p <CV-qualifiers> [<number>] _`. -/
def functionParamParse (input : IndexStr) : PResult (FunctionParam × IndexStr) :=
  match consume ['f'] input with
  | .error e => .error e
  | .ok tail =>
    if tail.isEmpty then .error .UnexpectedEnd
    else
      let scopeRes : PResult (Int × IndexStr) :=
        match consume ['L'] tail with
        | .ok tail2 => parse_number 10 false tail2
        | .error _ => .ok (0, tail)
      match scopeRes with
      | .error e => .error e
      | .ok (scope, tail) =>
        match consume ['p'] tail with
        | .error e => .error e
        | .ok tail =>
          match cvQualifiersParse tail with
          | .error e => .error e
          | .ok (qualifiers, tail) =>
            let (param, tail) :=
              match parse_number 10 false tail with
              | .ok (num, tail2) => (some num.toNat, tail2)
              | .error _ => (none, tail)
            match consume ['_'] tail with
            | .error e => .error e
            | .ok tail => .ok (⟨scope.toNat, qualifiers, param⟩, tail)

/-- A handle generated by `define_handle!` for `<prefix>` nodes
(src/ast.rs line 1050): a well-known component or a back-reference into
the substitution table. -/
inductive PfxHandle where
  | WellKnown : WellKnownComponent → PfxHandle
  | BackReference : Nat → PfxHandle
deriving DecidableEq, Repr

/-- A handle generated by `define_handle!` for `UnscopedTemplateName`
(src/ast.rs line 871). -/
inductive UnscopedTemplateNameHandle where
  | WellKnown : WellKnownComponent → UnscopedTemplateNameHandle
  | BackReference : Nat → UnscopedTemplateNameHandle
deriving DecidableEq, Repr

/-- A handle generated by `define_handle!` for `TemplateTemplateParam`
(src/ast.rs line 2701). -/
inductive TemplateTemplateParamHandle where
  | WellKnown : WellKnownComponent → TemplateTemplateParamHandle
  | BackReference : Nat → TemplateTemplateParamHandle
deriving DecidableEq, Repr

/-- A handle generated by `define_handle!` for `Type` nodes, with the
extra inline `Builtin` variant (src/ast.rs line 1722). -/
inductive TypeHandle where
  | WellKnown : WellKnownComponent → TypeHandle
  | BackReference : Nat → TypeHandle
  | Builtin : BuiltinType → TypeHandle
deriving DecidableEq, Repr

/-- `TypeHandle::is_void` (src/ast.rs line 1731). -/
def TypeHandle.is_void : TypeHandle → Bool
  | .Builtin (.Standard .Void) => true
  | _ => false

/-- The nullptr builtin handle, `TypeHandle::Builtin(BuiltinType::
Standard(StandardBuiltinType::Nullptr))`, matched specially by
`ExprPrimary::demangle` (src/ast.rs line 4196). -/
def nullptrHandle : TypeHandle := .Builtin (.Standard .Nullptr)

/-- The `<discriminator>` production's payload (src/ast.rs line 4362). -/
structure Discriminator where
  num : Nat
deriving DecidableEq, Repr

/-- A `<data-member-prefix>` wraps a `SourceName`
(src/ast.rs, `DataMemberPrefix`). -/
structure DataMemberPfx where
  name : SourceName
deriving DecidableEq, Repr

/-- The `<nested-name>` production's payload (src/ast.rs line 922):
cv-qualifiers, an optional ref-qualifier, and a prefix handle. -/
structure NestedName where
  cv : CvQualifiers
  refQual : Option RefQualifier
  pfx : PfxHandle
deriving DecidableEq, Repr

/-- An `<unscoped-name>` (src/ast.rs line 819). -/
inductive UnscopedName where
  | Unqualified : UnqualifiedName → UnscopedName
  | Std : UnqualifiedName → UnscopedName
deriving DecidableEq, Repr

/-- An `<unscoped-template-name>` wraps an `UnscopedName`
(src/ast.rs line 869). -/
structure UnscopedTemplateName where
  name : UnscopedName
deriving DecidableEq, Repr

/-- A `<template-template-param>` wraps a `TemplateParam`
(src/ast.rs line 2699). -/
structure TemplateTemplateParam where
  param : TemplateParam
deriving DecidableEq, Repr

/-!
The `Name` / `LocalName` / `Encoding` families are mutually recursive in
the source.  Node families whose internal structure none of the verified
claims inspects are kept as type parameters, so every theorem below holds
for any instantiation (in particular for the real one):

* `TArg` stands for `TemplateArg` (so `TemplateArgs`, a
  `Vec<TemplateArg>`, becomes `List TArg`),
* `SN` stands for `SpecialName`,
* `Dt` stands for `Decltype`,
* `Ex` stands for `Expression` (as it occurs inside `ArrayType`),
* `UT` stands for `UnresolvedType`.

`BareFunctionType` is a newtype around `Vec<TypeHandle>` and is written
as a bare `List TypeHandle`.
-/

mutual

/-- The `<name>` production (src/ast.rs line 720). -/
inductive Name (TArg SN : Type) : Type where
  | Nested : NestedName → Name TArg SN
  | Unscoped : UnscopedName → Name TArg SN
  | UnscopedTemplate : UnscopedTemplateNameHandle → List TArg → Name TArg SN
  | Local : LocalName TArg SN → Name TArg SN
  | Std : UnqualifiedName → Name TArg SN

/-- The `<local-name>` production (src/ast.rs line 4267). -/
inductive LocalName (TArg SN : Type) : Type where
  | Relative :
      Encoding TArg SN → Option (Name TArg SN) → Option Discriminator →
      LocalName TArg SN
  | Default :
      Encoding TArg SN → Option Nat → Name TArg SN → LocalName TArg SN

/-- The `<encoding>` production (src/ast.rs line 624). -/
inductive Encoding (TArg SN : Type) : Type where
  | Function : Name TArg SN → List TypeHandle → Encoding TArg SN
  | Data : Name TArg SN → Encoding TArg SN
  | Special : SN → Encoding TArg SN

end

/-- The `<prefix>` production (src/ast.rs line 1015). -/
inductive Pfx (TArg Dt : Type) : Type where
  | Unqualified : UnqualifiedName → Pfx TArg Dt
  | Nested : PfxHandle → UnqualifiedName → Pfx TArg Dt
  | Template : PfxHandle → List TArg → Pfx TArg Dt
  | TemplateParam : TemplateParam → Pfx TArg Dt
  | Decltype : Dt → Pfx TArg Dt
  | DataMember : PfxHandle → DataMemberPfx → Pfx TArg Dt

/-- The `<function-type>` production's payload (src/ast.rs line 2215). -/
structure FunctionType where
  cv_qualifiers : CvQualifiers
  transaction_safe : Bool
  extern_c : Bool
  bare : List TypeHandle
  ref_qualifier : Option RefQualifier

/-- The `<class-enum-type>` production (src/ast.rs line 2407). -/
inductive ClassEnumType (TArg SN : Type) : Type where
  | Named : Name TArg SN → ClassEnumType TArg SN
  | ElaboratedStruct : Name TArg SN → ClassEnumType TArg SN
  | ElaboratedUnion : Name TArg SN → ClassEnumType TArg SN
  | ElaboratedEnum : Name TArg SN → ClassEnumType TArg SN

/-- The `<array-type>` production (src/ast.rs line 2528). -/
inductive ArrayType (Ex : Type) : Type where
  | DimensionNumber : Nat → TypeHandle → ArrayType Ex
  | DimensionExpression : Ex → TypeHandle → ArrayType Ex
  | NoDimension : TypeHandle → ArrayType Ex

/-- The `<pointer-to-member-type>` production (src/ast.rs line 2619). -/
structure PointerToMemberType where
  classType : TypeHandle
  memberType : TypeHandle

/-- The `<type>` production (src/ast.rs line 1674), named `TypeM` because
`Type` is a Lean keyword. -/
inductive TypeM (TArg SN Dt Ex : Type) : Type where
  | Function : FunctionType → TypeM TArg SN Dt Ex
  | ClassEnum : ClassEnumType TArg SN → TypeM TArg SN Dt Ex
  | Array : ArrayType Ex → TypeM TArg SN Dt Ex
  | PointerToMember : PointerToMemberType → TypeM TArg SN Dt Ex
  | TemplateParam : TemplateParam → TypeM TArg SN Dt Ex
  | TemplateTemplate :
      TemplateTemplateParamHandle → List TArg → TypeM TArg SN Dt Ex
  | Decltype : Dt → TypeM TArg SN Dt Ex
  | Qualified : CvQualifiers → TypeHandle → TypeM TArg SN Dt Ex
  | PointerTo : TypeHandle → TypeM TArg SN Dt Ex
  | LvalueRef : TypeHandle → TypeM TArg SN Dt Ex
  | RvalueRef : TypeHandle → TypeM TArg SN Dt Ex
  | Complex : TypeHandle → TypeM TArg SN Dt Ex
  | Imaginary : TypeHandle → TypeM TArg SN Dt Ex
  | VendorExtension :
      SourceName → Option (List TArg) → TypeHandle → TypeM TArg SN Dt Ex
  | PackExpansion : TypeHandle → TypeM TArg SN Dt Ex

/-- Modelled from the spec: the sum of substitutable nonterminals stored
in the substitution table (spec sections 3.2 and 4.B; the enum lives in
`subs.rs`, outside `src/`, with variants `Type`, `Prefix`,
`UnscopedTemplateName`, `TemplateTemplateParam` and `UnresolvedType`). -/
inductive Substitutable (TArg SN Dt Ex UT : Type) : Type where
  | TypeS : TypeM TArg SN Dt Ex → Substitutable TArg SN Dt Ex UT
  | PrefixS : Pfx TArg Dt → Substitutable TArg SN Dt Ex UT
  | UnscopedTemplateNameS :
      UnscopedTemplateName → Substitutable TArg SN Dt Ex UT
  | TemplateTemplateParamS :
      TemplateTemplateParam → Substitutable TArg SN Dt Ex UT
  | UnresolvedTypeS : UT → Substitutable TArg SN Dt Ex UT

/-- Modelled from the spec: the substitution table is a dense,
append-only, insertion-ordered store of `Substitutable` values (spec
section 4.B; `SubstitutionTable` lives in `subs.rs`, outside `src/`). -/
abbrev Store (TArg SN Dt Ex UT : Type) := List (Substitutable TArg SN Dt Ex UT)

section StoreOps

variable {TArg SN Dt Ex UT : Type}

/-- Modelled from the spec: `SubstitutionTable::contains(idx)` holds
exactly when `idx` indexes an already-inserted entry. -/
def storeContains (subs : Store TArg SN Dt Ex UT) (idx : Nat) : Bool :=
  idx < subs.length

/-- Modelled from the spec: `SubstitutionTable::insert` appends and
returns the new entry's index (monotonic). -/
def storeInsert (subs : Store TArg SN Dt Ex UT)
    (v : Substitutable TArg SN Dt Ex UT) :
    Nat × Store TArg SN Dt Ex UT :=
  (subs.length, subs ++ [v])

/-- Modelled from the spec: `SubstitutionTable::get(idx)`. -/
def storeGet (subs : Store TArg SN Dt Ex UT) (idx : Nat) :
    Option (Substitutable TArg SN Dt Ex UT) :=
  subs.get? idx

/-- Modelled from the spec: `SubstitutionTable::get_type(handle)` resolves
a `TypeHandle::BackReference` to the stored `Type`, if the entry is one
(used by the pointer/reference/qualified rendering arms). -/
def storeGetType (subs : Store TArg SN Dt Ex UT) :
    TypeHandle → Option (TypeM TArg SN Dt Ex)
  | .BackReference idx =>
    match subs.get? idx with
    | some (.TypeS t) => some t
    | _ => none
  | _ => none

end StoreOps

/-- The `<substitution>` parse result (src/ast.rs line 4541). -/
inductive Substitution where
  | BackReference : Nat → Substitution
  | WellKnown : WellKnownComponent → Substitution
deriving DecidableEq, Repr

/-- `Substitution::parse` (src/ast.rs line 4552): first try the
well-known two-letter components; otherwise consume `S`, an optional
base-36 `<seq-id>` (`idx = seq_id + 1` when present, `0` when absent),
require `idx` to be in the substitution table (`BadBackReference`
otherwise), and finally consume `_`.  This parser only reads the table,
so the table is passed as a plain argument. -/
def substitutionParse {TArg SN Dt Ex UT : Type}
    (subs : Store TArg SN Dt Ex UT) (input : IndexStr) :
    PResult (Substitution × IndexStr) :=
  match wellKnownParse input with
  | .ok (well_known, tail) => .ok (.WellKnown well_known, tail)
  | .error _ =>
    match consume ['S'] input with
    | .error e => .error e
    | .ok tail =>
      let (idx, tail) :=
        match seqIdParse tail with
        | .ok (idx, tail2) => (idx + 1, tail2)
        | .error _ => (0, tail)
      if !storeContains subs idx then .error .BadBackReference
      else
        match consume ['_'] tail with
        | .error e => .error e
        | .ok tail => .ok (.BackReference idx, tail)

section GetTemplateArgs

variable {TArg SN Dt Ex UT : Type}

/-- `GetTemplateArgs for Prefix` (src/ast.rs line 1035): only the
`Template` variant carries template arguments. -/
def Pfx.get_template_args : Pfx TArg Dt → Option (List TArg)
  | .Template _ args => some args
  | _ => none

/-- `GetTemplateArgs for PrefixHandle` (src/ast.rs line 1181): resolve a
back-reference and ask the stored prefix; anything else has none. -/
def PfxHandle.get_template_args (subs : Store TArg SN Dt Ex UT) :
    PfxHandle → Option (List TArg)
  | .BackReference idx =>
    match subs.get? idx with
    | some (.PrefixS p) => p.get_template_args
    | _ => none
  | _ => none

/-- `GetTemplateArgs for NestedName` (src/ast.rs line 990): delegate to
the prefix handle. -/
def NestedName.get_template_args (subs : Store TArg SN Dt Ex UT)
    (n : NestedName) : Option (List TArg) :=
  n.pfx.get_template_args subs

mutual

/-- `GetTemplateArgs for Name` (src/ast.rs line 798). -/
def Name.get_template_args (subs : Store TArg SN Dt Ex UT) :
    Name TArg SN → Option (List TArg)
  | .UnscopedTemplate _ args => some args
  | .Nested nested => nested.get_template_args subs
  | .Local local_ => local_.get_template_args subs
  | .Unscoped _ => none
  | .Std _ => none

/-- `GetTemplateArgs for LocalName` (src/ast.rs line 4343). -/
def LocalName.get_template_args (subs : Store TArg SN Dt Ex UT) :
    LocalName TArg SN → Option (List TArg)
  | .Relative _ none _ => none
  | .Relative _ (some name) _ => name.get_template_args subs
  | .Default _ _ name => name.get_template_args subs

end

/-- `Prefix::is_template_prefix` (src/ast.rs line 1201). -/
def Pfx.isTemplatePfx : Pfx TArg Dt → Bool
  | .Unqualified _ => true
  | .Nested _ _ => true
  | .TemplateParam _ => true
  | _ => false

/-- `PrefixHandle::is_template_prefix` (src/ast.rs line 1212). -/
def PfxHandle.isTemplatePfx (subs : Store TArg SN Dt Ex UT) :
    PfxHandle → Bool
  | .BackReference idx =>
    match subs.get? idx with
    | some (.PrefixS p) => p.isTemplatePfx
    | _ => false
  | _ => false

end GetTemplateArgs

/-!
Parsers that may insert into the substitution table thread the table
explicitly: a `ParseFn σ α` takes the table and the cursor and returns
the updated table together with the parse outcome.  The table is
returned even on failure, matching the `&mut SubstitutionTable`
semantics of the source, where insertions made by a failed speculative
attempt stay in the table.
-/
abbrev ParseFn (σ α : Type) := σ → IndexStr → σ × PResult (α × IndexStr)

section PfxParse

variable {TArg SN Dt Ex UT : Type}

/-- Shorthand for the store the prefix parser works on. -/
abbrev StoreOf (TArg SN Dt Ex UT : Type) := Store TArg SN Dt Ex UT

/-- The loop body of `PrefixHandle::parse` (src/ast.rs line 1055),
parameterised by the `Decltype::parse` and `TemplateArgs::parse`
sub-parsers, whose own grammars none of the verified claims inspect.
`fuel` bounds the number of loop iterations; every genuine iteration of
the source loop consumes at least one input byte, so `input.len + 1`
fuel is always enough for the real sub-parsers.  Fuel exhaustion is
reported as `UnexpectedText`. -/
def pfxHandleParseLoop
    (pDt : ParseFn (StoreOf TArg SN Dt Ex UT) Dt)
    (pTA : ParseFn (StoreOf TArg SN Dt Ex UT) (List TArg)) :
    Nat → StoreOf TArg SN Dt Ex UT → IndexStr → Option PfxHandle →
    StoreOf TArg SN Dt Ex UT × PResult (PfxHandle × IndexStr)
  | 0, subs, _, _ => (subs, .error .UnexpectedText)
  | fuel + 1, subs, tail, current =>
    match tail.peek with
    | none =>
      (subs,
        match current with
        | some handle => .ok (handle, tail)
        | none => .error .UnexpectedEnd)
    | some c =>
      if c = 'S' then
        -- <prefix> ::= <substitution>
        match substitutionParse subs tail with
        | .error e => (subs, .error e)
        | .ok (sub, tail2) =>
          let cur : PfxHandle :=
            match sub with
            | .WellKnown component => .WellKnown component
            | .BackReference idx => .BackReference idx
          pfxHandleParseLoop pDt pTA fuel subs tail2 (some cur)
      else if c = 'T' then
        -- <prefix> ::= <template-param>
        match templateParamParse tail with
        | .error e => (subs, .error e)
        | .ok (param, tail2) =>
          let (idx, subs) :=
            storeInsert subs (.PrefixS (.TemplateParam param))
          pfxHandleParseLoop pDt pTA fuel subs tail2
            (some (.BackReference idx))
      else if c = 'D' then
        -- <prefix> ::= <decltype>, or an <unqualified-name> starting D
        match pDt subs tail with
        | (subs, .ok (decltype, tail2)) =>
          let (idx, subs) := storeInsert subs (.PrefixS (.Decltype decltype))
          pfxHandleParseLoop pDt pTA fuel subs tail2
            (some (.BackReference idx))
        | (subs, .error _) =>
          match unqualifiedNameParse tail with
          | .error e => (subs, .error e)
          | .ok (name, tail2) =>
            let pfx : Pfx TArg Dt :=
              match current with
              | none => .Unqualified name
              | some handle => .Nested handle name
            let (idx, subs) := storeInsert subs (.PrefixS pfx)
            pfxHandleParseLoop pDt pTA fuel subs tail2
              (some (.BackReference idx))
      else if c = 'I' &&
          (match current with
           | some cur => cur.isTemplatePfx subs
           | none => false) then
        -- <prefix> ::= <template-prefix> <template-args>
        match current with
        | none => (subs, .error .UnexpectedText)
        | some cur =>
          match pTA subs tail with
          | (subs, .error e) => (subs, .error e)
          | (subs, .ok (args, tail2)) =>
            let (idx, subs) := storeInsert subs (.PrefixS (.Template cur args))
            pfxHandleParseLoop pDt pTA fuel subs tail2
              (some (.BackReference idx))
      else if current.isSome && sourceNameStartsWith c then
        -- <source-name>, either a plain unqualified name or a
        -- <data-member-prefix> when followed by M
        match sourceNameParse tail with
        | .error e => (subs, .error e)
        | .ok (name, tail2) =>
          if tail2.peek = some 'M' then
            match current with
            | none => (subs, .error .UnexpectedText)
            | some cur =>
              let (idx, subs) :=
                storeInsert subs (.PrefixS (.DataMember cur ⟨name⟩))
              match consume ['M'] tail2 with
              | .ok tail3 =>
                pfxHandleParseLoop pDt pTA fuel subs tail3
                  (some (.BackReference idx))
              | .error e => (subs, .error e)
          else
            let pfx : Pfx TArg Dt :=
              match current with
              | none => .Unqualified (.Source name)
              | some handle => .Nested handle (.Source name)
            let (idx, subs) := storeInsert subs (.PrefixS pfx)
            pfxHandleParseLoop pDt pTA fuel subs tail2
              (some (.BackReference idx))
      else if unqualifiedNameStartsWith c then
        -- <prefix> ::= <unqualified-name>
        match unqualifiedNameParse tail with
        | .error e => (subs, .error e)
        | .ok (name, tail2) =>
          let pfx : Pfx TArg Dt :=
            match current with
            | none => .Unqualified name
            | some handle => .Nested handle name
          let (idx, subs) := storeInsert subs (.PrefixS pfx)
          pfxHandleParseLoop pDt pTA fuel subs tail2
            (some (.BackReference idx))
      else
        (subs,
          match current with
          | some handle => .ok (handle, tail)
          | none =>
            if tail.isEmpty then .error .UnexpectedEnd
            else .error .UnexpectedText)

/-- `PrefixHandle::parse` (src/ast.rs line 1055): the iterative prefix
parser, starting with no current prefix. -/
def pfxHandleParse
    (pDt : ParseFn (StoreOf TArg SN Dt Ex UT) Dt)
    (pTA : ParseFn (StoreOf TArg SN Dt Ex UT) (List TArg))
    (fuel : Nat) : ParseFn (StoreOf TArg SN Dt Ex UT) PfxHandle :=
  fun subs input => pfxHandleParseLoop pDt pTA fuel subs input none

/-- The ending check of `NestedName::parse` (src/ast.rs line 947): when
the prefix handle is a back-reference, the referenced substitutable must
be a `Prefix::Nested` or `Prefix::Template`; any other handle shape is
not checked at all.  (The source indexes the table directly, which for a
parser-produced handle is always in bounds; an out-of-range index is
treated as failing the check here.) -/
def nestedNameEndingOk (subs : StoreOf TArg SN Dt Ex UT) :
    PfxHandle → Bool
  | .BackReference idx =>
    match subs.get? idx with
    | some (.PrefixS (.Nested _ _)) => true
    | some (.PrefixS (.Template _ _)) => true
    | _ => false
  | _ => true

/-- `NestedName::parse` (src/ast.rs line 924):
`N [<CV-qualifiers>] [<ref-qualifier>] <prefix> E`, where the terminal
prefix must pass `nestedNameEndingOk`. -/
def nestedNameParse
    (pDt : ParseFn (StoreOf TArg SN Dt Ex UT) Dt)
    (pTA : ParseFn (StoreOf TArg SN Dt Ex UT) (List TArg))
    (fuel : Nat) : ParseFn (StoreOf TArg SN Dt Ex UT) NestedName :=
  fun subs input =>
    match consume ['N'] input with
    | .error e => (subs, .error e)
    | .ok tail =>
      let (cv_qualifiers, tail) :=
        match cvQualifiersParse tail with
        | .ok (q, tail2) => (q, tail2)
        | .error _ => (CvQualifiers.default, tail)
      let (ref_qualifier, tail) :=
        match refQualifierParse tail with
        | .ok (r, tail2) => (some r, tail2)
        | .error _ => (none, tail)
      match pfxHandleParse pDt pTA fuel subs tail with
      | (subs, .error e) => (subs, .error e)
      | (subs, .ok (pfx_, tail)) =>
        if !nestedNameEndingOk subs pfx_ then (subs, .error .UnexpectedText)
        else
          match consume ['E'] tail with
          | .error e => (subs, .error e)
          | .ok tail =>
            (subs, .ok (⟨cv_qualifiers, ref_qualifier, pfx_⟩, tail))

end PfxParse

/-!
Renderer model.  A `DemangleContext` carries the original input (for
literal echo) and the output written so far; `last_byte_written` is by
construction the last byte of the output (the `Write` impl records the
last byte of every non-empty write, and writes only append).  Sink I/O
errors cannot occur with the in-memory sink assumed by the spec, so a
rendering step produces either an updated context or a demangling
`Error` (the source wraps these in `io::Error`, preserving the kind in
the error description). -/
structure Ctx where
  input : List Char
  out : List Char
deriving DecidableEq, Repr

namespace Ctx

/-- The `last_byte_written` bookkeeping of `DemangleContext`. -/
def lastByte (c : Ctx) : Option Char := c.out.getLast?

/-- `write!`: append to the output. -/
def write (c : Ctx) (s : List Char) : Ctx := { c with out := c.out ++ s }

/-- `DemangleContext::ensure_space` (src/ast.rs line 272): write a single
space unless the previous output byte is already a space. -/
def ensureSpace (c : Ctx) : Ctx :=
  if c.lastByte = some ' ' then c else c.write [' ']

end Ctx

/-- Outcome of one rendering step. -/
abbrev RResult := Except Error Ctx

/-- `Demangle for CvQualifiers` (src/ast.rs line 2055): `const`, then
`volatile`, then `restrict` (those that are set), each preceded by
`ensure_space`. -/
def cvDemangle (q : CvQualifiers) (ctx : Ctx) : Ctx :=
  let ctx :=
    if q.const_ then (ctx.ensureSpace).write ['c', 'o', 'n', 's', 't']
    else ctx
  let ctx :=
    if q.volatile then
      (ctx.ensureSpace).write ['v', 'o', 'l', 'a', 't', 'i', 'l', 'e']
    else ctx
  if q.restrict then
    (ctx.ensureSpace).write ['r', 'e', 's', 't', 'r', 'i', 'c', 't']
  else ctx

section QualifiedArm

variable {TArg SN Dt Ex UT : Type}

/-- The `Type::Qualified` arm of `Type::demangle_with_inner`
(src/ast.rs line 1906), parameterised by the two renderings it
dispatches to: `typeDWI t inner` is `t.demangle_with_inner(inner, …)`
for the resolved pointer type, and `thDemangle` is `ty.demangle(…)` for
the qualified base handle.  When the base handle resolves to a
`Type::PointerTo`, the qualifiers are passed down as the inner item;
otherwise the base is rendered, then a space, then the qualifiers. -/
def qualifiedTypeArm
    (typeDWI : TypeM TArg SN Dt Ex → Option CvQualifiers → RResult)
    (thDemangle : RResult)
    (subs : Store TArg SN Dt Ex UT)
    (quals : CvQualifiers) (ty : TypeHandle) : RResult :=
  match storeGetType subs ty with
  | some (.PointerTo h) => typeDWI (.PointerTo h) (some quals)
  | _ =>
    match thDemangle with
    | .error e => .error e
    | .ok ctx => .ok (cvDemangle quals (ctx.write [' ']))

end QualifiedArm

/-!
Argument scope stack.  An `ArgStack` frame holds a reference to an
`ArgResolver`; the only `ArgResolver` implementation in the program
besides the stack itself is `TemplateArgs` (src/ast.rs line 2852), and
every push site (`Encoding::demangle`, `Name::demangle`,
`TemplateTemplateParam`-related rendering) pushes a `&TemplateArgs`, so a
stack is modelled as the list of pushed `TemplateArgs`, innermost
first.
-/
abbrev ArgStackM (TArg : Type) := List (List TArg)

section ArgStack

variable {TArg SN Dt Ex : Type}

/-- `ArgResolver for TemplateArgs`, `get_template_arg`
(src/ast.rs line 2853): index into the argument vector, else
`BadTemplateArgReference`. -/
def templateArgsGetTemplateArg (args : List TArg) (idx : Nat) :
    PResult TArg :=
  match args.get? idx with
  | some a => .ok a
  | none => .error .BadTemplateArgReference

/-- `ArgResolver for TemplateArgs`, `get_function_arg`
(src/ast.rs line 2857): a `TemplateArgs` resolver refuses every function
argument lookup. -/
def templateArgsGetFunctionArg (TArg SN Dt Ex : Type) (_args : List TArg)
    (_idx : Nat) : PResult (TypeM TArg SN Dt Ex) :=
  .error .BadFunctionArgReference

/-- `ArgResolver for Option<ArgStack>`, `get_template_arg`
(src/ast.rs line 162): walk the frames innermost-first and return the
first hit; `BadTemplateArgReference` when the stack is exhausted. -/
def stackGetTemplateArg : ArgStackM TArg → Nat → PResult TArg
  | [], _ => .error .BadTemplateArgReference
  | item :: rest, idx =>
    match templateArgsGetTemplateArg item idx with
    | .ok a => .ok a
    | .error _ => stackGetTemplateArg rest idx

/-- `ArgResolver for Option<ArgStack>`, `get_function_arg`
(src/ast.rs line 174): walk the frames innermost-first;
`BadFunctionArgReference` when the stack is exhausted. -/
def stackGetFunctionArg (TArg SN Dt Ex : Type) :
    ArgStackM TArg → Nat → PResult (TypeM TArg SN Dt Ex)
  | [], _ => .error .BadFunctionArgReference
  | item :: rest, idx =>
    match templateArgsGetFunctionArg TArg SN Dt Ex item idx with
    | .ok a => .ok a
    | .error _ => stackGetFunctionArg TArg SN Dt Ex rest idx

/-- `Demangle for FunctionParam` (src/ast.rs line 2795): resolve
`self.0` (the scope number) through the stack's `get_function_arg` and
render the resulting type; the resolver error is surfaced otherwise.
`tyDemangle` stands for the `Type` rendering the success path invokes. -/
def functionParamDemangle
    (tyDemangle : TypeM TArg SN Dt Ex → Ctx → ArgStackM TArg → RResult)
    (fp : FunctionParam) (ctx : Ctx) (stack : ArgStackM TArg) : RResult :=
  match stackGetFunctionArg TArg SN Dt Ex stack fp.scope with
  | .error e => .error e
  | .ok ty => tyDemangle ty ctx stack

/-- `Demangle for TemplateParam` (src/ast.rs line 2679): resolve the
parameter index through the stack's `get_template_arg` and render the
resulting template argument. -/
def templateParamDemangle
    (argDemangle : TArg → Ctx → ArgStackM TArg → RResult)
    (tp : TemplateParam) (ctx : Ctx) (stack : ArgStackM TArg) : RResult :=
  match stackGetTemplateArg stack tp.paramIdx with
  | .error e => .error e
  | .ok arg => argDemangle arg ctx stack

end ArgStack

section EncodingDemangle

variable {TArg SN : Type}

/-- The `need_comma` loop of `Demangle for FunctionArgList`
(src/ast.rs line 379): render each argument type, preceded by `", "`
for every argument after the first. -/
def falArgsRender
    (thDemangle : TypeHandle → Ctx → ArgStackM TArg → RResult)
    (stack : ArgStackM TArg) :
    List TypeHandle → Ctx → Bool → RResult
  | [], ctx, _ => .ok ctx
  | arg :: rest, ctx, need_comma =>
    let ctx := if need_comma then ctx.write [',', ' '] else ctx
    match thDemangle arg ctx stack with
    | .error e => .error e
    | .ok ctx => falArgsRender thDemangle stack rest ctx true

/-- `Demangle for FunctionArgList` (src/ast.rs line 363): `(`, then the
comma-separated argument types — except that a lone void parameter
renders as `()` — then `)`. `thDemangle` is the `TypeHandle` rendering
used for each argument. -/
def functionArgListDemangle
    (thDemangle : TypeHandle → Ctx → ArgStackM TArg → RResult)
    (tys : List TypeHandle) (ctx : Ctx) (stack : ArgStackM TArg) :
    RResult :=
  let ctx := ctx.write ['(']
  if (match tys with | [t] => t.is_void | _ => false) then
    .ok (ctx.write [')'])
  else
    match falArgsRender thDemangle stack tys ctx false with
    | .error e => .error e
    | .ok ctx => .ok (ctx.write [')'])

/-- The name-and-argument-list tail of the `Encoding::Function` arm of
`Encoding::demangle` (src/ast.rs line 697): a `Name::Nested` receives
the argument list as its inner item, any other name is rendered and then
followed by the argument list. -/
def encodingFunctionTail
    (thDemangle : TypeHandle → Ctx → ArgStackM TArg → RResult)
    (nameDemangle : Name TArg SN → Ctx → ArgStackM TArg → RResult)
    (nestedDWI :
      NestedName → (Ctx → ArgStackM TArg → RResult) → Ctx →
        ArgStackM TArg → RResult)
    (name : Name TArg SN) (functionArgs : List TypeHandle)
    (ctx : Ctx) (stack : ArgStackM TArg) : RResult :=
  match name with
  | .Nested nested =>
    nestedDWI nested (functionArgListDemangle thDemangle functionArgs)
      ctx stack
  | _ =>
    match nameDemangle name ctx stack with
    | .error e => .error e
    | .ok ctx => functionArgListDemangle thDemangle functionArgs ctx stack

/-- `Demangle for Encoding` (src/ast.rs line 654), parameterised by the
renderings of its children.  For a function encoding whose name carries
template args, those args are pushed onto the argument stack, the first
bare-function-type element is rendered as the return type followed by a
space, and the argument list is the remaining elements; without template
args nothing is pushed, no return type is printed, and the argument list
is the whole bare-function-type.  (The source indexes `fun_ty.0[0]`,
which the parser's `one_or_more` guarantees to exist —
`debug_assert!(fun_ty.0.len() >= 1)`; an empty list is mapped to an
error here.) -/
def encodingDemangle {Dt Ex UT : Type}
    (subs : Store TArg SN Dt Ex UT)
    (thDemangle : TypeHandle → Ctx → ArgStackM TArg → RResult)
    (nameDemangle : Name TArg SN → Ctx → ArgStackM TArg → RResult)
    (nestedDWI :
      NestedName → (Ctx → ArgStackM TArg → RResult) → Ctx →
        ArgStackM TArg → RResult)
    (specialDemangle : SN → Ctx → ArgStackM TArg → RResult) :
    Encoding TArg SN → Ctx → ArgStackM TArg → RResult
  | .Function name funTy, ctx, stack =>
    (match Name.get_template_args subs name with
     | some template_args =>
       match funTy with
       | [] => .error .UnexpectedEnd
       | t0 :: rest =>
         let stack1 := template_args :: stack
         match thDemangle t0 ctx stack1 with
         | .error e => .error e
         | .ok ctx =>
           let ctx := ctx.write [' ']
           encodingFunctionTail thDemangle nameDemangle nestedDWI
             name rest ctx stack1
     | none =>
       encodingFunctionTail thDemangle nameDemangle nestedDWI
         name funTy ctx stack)
  | .Data name, ctx, stack => nameDemangle name ctx stack
  | .Special special, ctx, stack => specialDemangle special ctx stack

/-- The `MangledName` root (src/ast.rs line 563). -/
inductive MangledName (TArg SN : Type) : Type where
  | Encoding : Encoding TArg SN → MangledName TArg SN
  | TypeTop : TypeHandle → MangledName TArg SN

/-- The `<expr-primary>` production (src/ast.rs line 4150): a literal is
a type handle plus the byte range of the literal value in the original
input. -/
inductive ExprPrimary (TArg SN : Type) : Type where
  | Literal : TypeHandle → Nat → Nat → ExprPrimary TArg SN
  | External : MangledName TArg SN → ExprPrimary TArg SN

/-- `Demangle for ExprPrimary` (src/ast.rs line 4186): an external name
delegates; a literal of the nullptr builtin type prints `nullptr`
whatever its byte range; any other literal echoes its remembered byte
range verbatim when the range is non-empty and renders its type when
the range is empty. -/
def exprPrimaryDemangle
    (mnDemangle : MangledName TArg SN → Ctx → ArgStackM TArg → RResult)
    (thDemangle : TypeHandle → Ctx → ArgStackM TArg → RResult) :
    ExprPrimary TArg SN → Ctx → ArgStackM TArg → RResult
  | .External name, ctx, stack => mnDemangle name ctx stack
  | .Literal type_handle start stop, ctx, stack =>
    if type_handle = nullptrHandle then
      .ok (ctx.write ['n', 'u', 'l', 'l', 'p', 't', 'r'])
    else if start = stop then thDemangle type_handle ctx stack
    else .ok (ctx.write ((ctx.input.take stop).drop start))

end EncodingDemangle

/-!
Mark-bit cycle guard.  `define_handle!` generates, for every handle
enum, a `Demangle` impl whose `BackReference` arm (src/ast.rs
line 457) checks the entry's mark bit (`RecursiveDemangling` when
already set), sets it, renders the table entry, and clears it again;
the other handle variants render without touching the mark bits.  For
the guard itself only the graph of back-references matters, so a table
entry is abstracted to the ordered list of handles its rendering visits,
and recursion depth is bounded by an explicit fuel. -/
namespace MarkGuard

/-- A handle as seen by the generated `Demangle` impl: either a variant
that renders directly (`WellKnown` or an extra inline variant) or a
back-reference into the table. -/
inductive GHandle where
  | leaf : GHandle
  | backRef : Nat → GHandle
deriving DecidableEq, Repr

/-- The substitution table, with each entry abstracted to the sequence
of handles its rendering demangles. -/
abbrev GStore := List (List GHandle)

/-- Status of a guarded rendering: finished, failed with a demangling
error, or ran out of the model's fuel. -/
inductive GStatus where
  | ok
  | errored : Error → GStatus
  | outOfFuel
deriving DecidableEq, Repr

mutual

/-- The handle `Demangle` impl generated by `define_handle!`
(src/ast.rs line 449), threading the mark-bit set. -/
def demH : Nat → GStore → List Bool → GHandle → List Bool × GStatus
  | 0, _, marks, _ => (marks, .outOfFuel)
  | _ + 1, _, marks, .leaf => (marks, .ok)
  | fuel + 1, store, marks, .backRef idx =>
    if marks.getD idx false then (marks, .errored .RecursiveDemangling)
    else
      let marks1 := marks.set idx true
      let (marks2, st) := demEntry fuel store marks1 (store.getD idx [])
      (marks2.set idx false, st)
termination_by fuel _ _ _ => (fuel, 0)

/-- Render a table entry: demangle its handles in order, stopping at the
first failure. -/
def demEntry : Nat → GStore → List Bool → List GHandle → List Bool × GStatus
  | _, _, marks, [] => (marks, .ok)
  | fuel, store, marks, h :: rest =>
    match demH fuel store marks h with
    | (marks1, .ok) => demEntry fuel store marks1 rest
    | (marks1, st) => (marks1, st)
termination_by fuel _ _ hs => (fuel, hs.length + 1)

end

end MarkGuard

/-!
The `<expression>` parser.  `Expr` is the `Expression` enum
(src/ast.rs line 2989); the nonterminals whose own structure the claims
never inspect stay type parameters: `URN` is `UnresolvedName`, `Init`
is `Initializer`, `TArg` is `TemplateArg` and `EP` is `ExprPrimary`.
-/
inductive Expr (URN Init TArg EP : Type) : Type where
  | Unary : OperatorName → Expr URN Init TArg EP → Expr URN Init TArg EP
  | Binary :
      OperatorName → Expr URN Init TArg EP → Expr URN Init TArg EP →
      Expr URN Init TArg EP
  | Ternary :
      OperatorName → Expr URN Init TArg EP → Expr URN Init TArg EP →
      Expr URN Init TArg EP → Expr URN Init TArg EP
  | PrefixInc : Expr URN Init TArg EP → Expr URN Init TArg EP
  | PrefixDec : Expr URN Init TArg EP → Expr URN Init TArg EP
  | Call :
      Expr URN Init TArg EP → List (Expr URN Init TArg EP) →
      Expr URN Init TArg EP
  | ConversionOne :
      TypeHandle → Expr URN Init TArg EP → Expr URN Init TArg EP
  | ConversionMany :
      TypeHandle → List (Expr URN Init TArg EP) → Expr URN Init TArg EP
  | ConversionBraced :
      TypeHandle → List (Expr URN Init TArg EP) → Expr URN Init TArg EP
  | BracedInitList : Expr URN Init TArg EP → Expr URN Init TArg EP
  | New :
      List (Expr URN Init TArg EP) → TypeHandle → Option Init →
      Expr URN Init TArg EP
  | GlobalNew :
      List (Expr URN Init TArg EP) → TypeHandle → Option Init →
      Expr URN Init TArg EP
  | NewArray :
      List (Expr URN Init TArg EP) → TypeHandle → Option Init →
      Expr URN Init TArg EP
  | GlobalNewArray :
      List (Expr URN Init TArg EP) → TypeHandle → Option Init →
      Expr URN Init TArg EP
  | Delete : Expr URN Init TArg EP → Expr URN Init TArg EP
  | GlobalDelete : Expr URN Init TArg EP → Expr URN Init TArg EP
  | DeleteArray : Expr URN Init TArg EP → Expr URN Init TArg EP
  | GlobalDeleteArray : Expr URN Init TArg EP → Expr URN Init TArg EP
  | DynamicCast :
      TypeHandle → Expr URN Init TArg EP → Expr URN Init TArg EP
  | StaticCast :
      TypeHandle → Expr URN Init TArg EP → Expr URN Init TArg EP
  | ConstCast :
      TypeHandle → Expr URN Init TArg EP → Expr URN Init TArg EP
  | ReinterpretCast :
      TypeHandle → Expr URN Init TArg EP → Expr URN Init TArg EP
  | TypeidType : TypeHandle → Expr URN Init TArg EP
  | TypeidExpr : Expr URN Init TArg EP → Expr URN Init TArg EP
  | SizeofType : TypeHandle → Expr URN Init TArg EP
  | SizeofExpr : Expr URN Init TArg EP → Expr URN Init TArg EP
  | AlignofType : TypeHandle → Expr URN Init TArg EP
  | AlignofExpr : Expr URN Init TArg EP → Expr URN Init TArg EP
  | Noexcept : Expr URN Init TArg EP → Expr URN Init TArg EP
  | TemplateParam : TemplateParam → Expr URN Init TArg EP
  | FunctionParam : FunctionParam → Expr URN Init TArg EP
  | Member : Expr URN Init TArg EP → URN → Expr URN Init TArg EP
  | DerefMember : Expr URN Init TArg EP → URN → Expr URN Init TArg EP
  | PointerToMember :
      Expr URN Init TArg EP → Expr URN Init TArg EP →
      Expr URN Init TArg EP
  | SizeofTemplatePack : TemplateParam → Expr URN Init TArg EP
  | SizeofFunctionPack : FunctionParam → Expr URN Init TArg EP
  | SizeofCapturedTemplatePack : List TArg → Expr URN Init TArg EP
  | PackExpansion : Expr URN Init TArg EP → Expr URN Init TArg EP
  | Throw : Expr URN Init TArg EP → Expr URN Init TArg EP
  | Rethrow : Expr URN Init TArg EP
  | UnresolvedName : URN → Expr URN Init TArg EP
  | Primary : EP → Expr URN Init TArg EP

section ExprParse

variable {σ URN Init TArg EP : Type}

/-- Worker for `zero_or_more` (src/ast.rs line 4823): repeat the parser
while it succeeds, keeping the results; the first failure ends the loop
successfully (keeping the table as the failed attempt left it).  `fuel`
bounds the iteration count; a successful parse of the real grammar
always consumes input, so `input.len + 1` fuel is always enough. -/
def zeroOrMoreGo (p : ParseFn σ α) :
    Nat → σ → IndexStr → List α → σ × PResult (List α × IndexStr)
  | 0, s, _, _ => (s, .error .UnexpectedText)
  | fuel + 1, s, tail, acc =>
    match p s tail with
    | (s, .ok (parsed, tail2)) => zeroOrMoreGo p fuel s tail2 (acc ++ [parsed])
    | (s, .error _) => (s, .ok (acc, tail))

/-- `zero_or_more` (src/ast.rs line 4823). -/
def zeroOrMore (p : ParseFn σ α) (fuel : Nat) : ParseFn σ (List α) :=
  fun s input => zeroOrMoreGo p fuel s input []

/-- The `can_be_global` helper of `Expression::parse`
(src/ast.rs line 3338): the forms that may carry a leading `gs`.
`exprP` is the recursive expression parser, `typeP` / `initP` the
`TypeHandle` / `Initializer` sub-parsers, `loopFuel` the fuel for the
embedded `zero_or_more`. -/
def canBeGlobal (exprP : ParseFn σ (Expr URN Init TArg EP))
    (typeP : ParseFn σ TypeHandle) (initP : ParseFn σ Init)
    (loopFuel : Nat) (is_global : Bool) :
    ParseFn σ (Expr URN Init TArg EP) := fun s input =>
  match input.trySplitAt 2 with
  | none => (s, .error .UnexpectedEnd)
  | some (head, tail) =>
    if head.chars = ['n', 'w'] then
      match zeroOrMore exprP loopFuel s tail with
      | (s, .error e) => (s, .error e)
      | (s, .ok (exprs, tail)) =>
        match consume ['_'] tail with
        | .error e => (s, .error e)
        | .ok tail =>
          match typeP s tail with
          | (s, .error e) => (s, .error e)
          | (s, .ok (ty, tail)) =>
            match consume ['E'] tail with
            | .ok tail =>
              (s, .ok
                (if is_global then .GlobalNew exprs ty none
                 else .New exprs ty none, tail))
            | .error _ =>
              match initP s tail with
              | (s, .error e) => (s, .error e)
              | (s, .ok (init, tail)) =>
                (s, .ok
                  (if is_global then .GlobalNew exprs ty (some init)
                   else .New exprs ty (some init), tail))
    else if head.chars = ['n', 'a'] then
      match zeroOrMore exprP loopFuel s tail with
      | (s, .error e) => (s, .error e)
      | (s, .ok (exprs, tail)) =>
        match consume ['_'] tail with
        | .error e => (s, .error e)
        | .ok tail =>
          match typeP s tail with
          | (s, .error e) => (s, .error e)
          | (s, .ok (ty, tail)) =>
            match consume ['E'] tail with
            | .ok tail =>
              (s, .ok
                (if is_global then .GlobalNewArray exprs ty none
                 else .NewArray exprs ty none, tail))
            | .error _ =>
              match initP s tail with
              | (s, .error e) => (s, .error e)
              | (s, .ok (init, tail)) =>
                (s, .ok
                  (if is_global then .GlobalNewArray exprs ty (some init)
                   else .NewArray exprs ty (some init), tail))
    else if head.chars = ['d', 'l'] then
      match exprP s tail with
      | (s, .error e) => (s, .error e)
      | (s, .ok (expr, tail)) =>
        (s, .ok
          (if is_global then .GlobalDelete expr else .Delete expr, tail))
    else if head.chars = ['d', 'a'] then
      match exprP s tail with
      | (s, .error e) => (s, .error e)
      | (s, .ok (expr, tail)) =>
        (s, .ok
          (if is_global then .GlobalDeleteArray expr
           else .DeleteArray expr, tail))
    else (s, .error .UnexpectedText)

/-- The operator-name-driven coda of `Expression::parse`
(src/ast.rs line 3316): parse an `<operator-name>`, then one required
sub-expression, then greedily try a second and a third, producing a
`Ternary`, `Binary` or `Unary` according to how many parsed. -/
def exprParseOpName (exprP : ParseFn σ (Expr URN Init TArg EP)) :
    ParseFn σ (Expr URN Init TArg EP) := fun s input =>
  match operatorNameParse input with
  | .error e => (s, .error e)
  | .ok (opname, tail) =>
    match exprP s tail with
    | (s, .error e) => (s, .error e)
    | (s, .ok (first, tail)) =>
      match exprP s tail with
      | (s2, .ok (second, tail2)) =>
        match exprP s2 tail2 with
        | (s3, .ok (third, tail3)) =>
          (s3, .ok (.Ternary opname first second third, tail3))
        | (s3, .error _) =>
          (s3, .ok (.Binary opname first second, tail2))
      | (s2, .error _) => (s2, .ok (.Unary opname first, tail))

/-- The alternatives of `Expression::parse` tried after all the direct
op-code forms have fallen through (src/ast.rs line 3286): the non-`gs`
`can_be_global` forms, `<template-param>`, `<function-param>`,
`<unresolved-name>`, `<expr-primary>`, and finally the operator-name
driven forms. -/
def exprParseTail (exprP : ParseFn σ (Expr URN Init TArg EP))
    (typeP : ParseFn σ TypeHandle) (urnP : ParseFn σ URN)
    (epP : ParseFn σ EP) (initP : ParseFn σ Init) (loopFuel : Nat) :
    ParseFn σ (Expr URN Init TArg EP) := fun s input =>
  match canBeGlobal exprP typeP initP loopFuel false s input with
  | (s, .ok (expr, tail)) => (s, .ok (expr, tail))
  | (s, .error _) =>
    match templateParamParse input with
    | .ok (param, tail) => (s, .ok (.TemplateParam param, tail))
    | .error _ =>
      match functionParamParse input with
      | .ok (param, tail) => (s, .ok (.FunctionParam param, tail))
      | .error _ =>
        match urnP s input with
        | (s, .ok (name, tail)) => (s, .ok (.UnresolvedName name, tail))
        | (s, .error _) =>
          match epP s input with
          | (s, .ok (prim, tail)) => (s, .ok (.Primary prim, tail))
          | (s, .error _) => exprParseOpName exprP s input

/-- `Expression::parse` (src/ast.rs line 3119): `pp_` and `mm_` first,
then the two-letter direct op-code forms, then `gs`-prefixed forms, the
non-`gs` `can_be_global` forms, `<template-param>`, `<function-param>`,
`<unresolved-name>`, `<expr-primary>`, and only then the operator-name
driven unary/binary/ternary forms.  `fuel` bounds the recursion depth;
fuel exhaustion reports `UnexpectedText`. -/
def exprParse (typeP : ParseFn σ TypeHandle) (urnP : ParseFn σ URN)
    (epP : ParseFn σ EP) (initP : ParseFn σ Init)
    (targP : ParseFn σ TArg) :
    Nat → ParseFn σ (Expr URN Init TArg EP)
  | 0 => fun s _ => (s, .error .UnexpectedText)
  | fuel + 1 => fun s input =>
    let exprP := exprParse typeP urnP epP initP targP fuel
    match consume ['p', 'p', '_'] input with
    | .ok tail =>
      match exprP s tail with
      | (s, .error e) => (s, .error e)
      | (s, .ok (expr, tail)) => (s, .ok (.PrefixInc expr, tail))
    | .error _ =>
    match consume ['m', 'm', '_'] input with
    | .ok tail =>
      match exprP s tail with
      | (s, .error e) => (s, .error e)
      | (s, .ok (expr, tail)) => (s, .ok (.PrefixDec expr, tail))
    | .error _ =>
    match input.trySplitAt 2 with
    | none => exprParseTail exprP typeP urnP epP initP fuel s input
    | some (head, tail) =>
      if head.chars = ['c', 'l'] then
        match exprP s tail with
        | (s, .error e) => (s, .error e)
        | (s, .ok (func, tail)) =>
          match zeroOrMore exprP fuel s tail with
          | (s, .error e) => (s, .error e)
          | (s, .ok (args, tail)) => (s, .ok (.Call func args, tail))
      else if head.chars = ['c', 'v'] then
        match typeP s tail with
        | (s, .error e) => (s, .error e)
        | (s, .ok (ty, tail)) =>
          match consume ['_'] tail with
          | .ok tail =>
            match zeroOrMore exprP fuel s tail with
            | (s, .error e) => (s, .error e)
            | (s, .ok (exprs, tail)) =>
              match consume ['E'] tail with
              | .error e => (s, .error e)
              | .ok tail => (s, .ok (.ConversionMany ty exprs, tail))
          | .error _ =>
            match exprP s tail with
            | (s, .error e) => (s, .error e)
            | (s, .ok (expr, tail)) =>
              (s, .ok (.ConversionOne ty expr, tail))
      else if head.chars = ['t', 'l'] then
        match typeP s tail with
        | (s, .error e) => (s, .error e)
        | (s, .ok (ty, tail)) =>
          match zeroOrMore exprP fuel s tail with
          | (s, .error e) => (s, .error e)
          | (s, .ok (exprs, tail)) =>
            match consume ['E'] tail with
            | .error e => (s, .error e)
            | .ok tail => (s, .ok (.ConversionBraced ty exprs, tail))
      else if head.chars = ['i', 'l'] then
        match exprP s tail with
        | (s, .error e) => (s, .error e)
        | (s, .ok (expr, tail)) =>
          match consume ['E'] tail with
          | .error e => (s, .error e)
          | .ok tail => (s, .ok (.BracedInitList expr, tail))
      else if head.chars = ['d', 'c'] then
        match typeP s tail with
        | (s, .error e) => (s, .error e)
        | (s, .ok (ty, tail)) =>
          match exprP s tail with
          | (s, .error e) => (s, .error e)
          | (s, .ok (expr, tail)) => (s, .ok (.DynamicCast ty expr, tail))
      else if head.chars = ['s', 'c'] then
        match typeP s tail with
        | (s, .error e) => (s, .error e)
        | (s, .ok (ty, tail)) =>
          match exprP s tail with
          | (s, .error e) => (s, .error e)
          | (s, .ok (expr, tail)) => (s, .ok (.StaticCast ty expr, tail))
      else if head.chars = ['c', 'c'] then
        match typeP s tail with
        | (s, .error e) => (s, .error e)
        | (s, .ok (ty, tail)) =>
          match exprP s tail with
          | (s, .error e) => (s, .error e)
          | (s, .ok (expr, tail)) => (s, .ok (.ConstCast ty expr, tail))
      else if head.chars = ['r', 'c'] then
        match typeP s tail with
        | (s, .error e) => (s, .error e)
        | (s, .ok (ty, tail)) =>
          match exprP s tail with
          | (s, .error e) => (s, .error e)
          | (s, .ok (expr, tail)) =>
            (s, .ok (.ReinterpretCast ty expr, tail))
      else if head.chars = ['t', 'i'] then
        match typeP s tail with
        | (s, .error e) => (s, .error e)
        | (s, .ok (ty, tail)) => (s, .ok (.TypeidType ty, tail))
      else if head.chars = ['t', 'e'] then
        match exprP s tail with
        | (s, .error e) => (s, .error e)
        | (s, .ok (expr, tail)) => (s, .ok (.TypeidExpr expr, tail))
      else if head.chars = ['s', 't'] then
        match typeP s tail with
        | (s, .error e) => (s, .error e)
        | (s, .ok (ty, tail)) => (s, .ok (.SizeofType ty, tail))
      else if head.chars = ['s', 'z'] then
        match exprP s tail with
        | (s, .error e) => (s, .error e)
        | (s, .ok (expr, tail)) => (s, .ok (.SizeofExpr expr, tail))
      else if head.chars = ['a', 't'] then
        match typeP s tail with
        | (s, .error e) => (s, .error e)
        | (s, .ok (ty, tail)) => (s, .ok (.AlignofType ty, tail))
      else if head.chars = ['a', 'z'] then
        match exprP s tail with
        | (s, .error e) => (s, .error e)
        | (s, .ok (expr, tail)) => (s, .ok (.AlignofExpr expr, tail))
      else if head.chars = ['n', 'x'] then
        match exprP s tail with
        | (s, .error e) => (s, .error e)
        | (s, .ok (expr, tail)) => (s, .ok (.Noexcept expr, tail))
      else if head.chars = ['d', 't'] then
        match exprP s tail with
        | (s, .error e) => (s, .error e)
        | (s, .ok (expr, tail)) =>
          match urnP s tail with
          | (s, .error e) => (s, .error e)
          | (s, .ok (name, tail)) => (s, .ok (.Member expr name, tail))
      else if head.chars = ['p', 't'] then
        match exprP s tail with
        | (s, .error e) => (s, .error e)
        | (s, .ok (expr, tail)) =>
          match urnP s tail with
          | (s, .error e) => (s, .error e)
          | (s, .ok (name, tail)) =>
            (s, .ok (.DerefMember expr name, tail))
      else if head.chars = ['d', 's'] then
        match exprP s tail with
        | (s, .error e) => (s, .error e)
        | (s, .ok (first, tail)) =>
          match exprP s tail with
          | (s, .error e) => (s, .error e)
          | (s, .ok (second, tail)) =>
            (s, .ok (.PointerToMember first second, tail))
      else if head.chars = ['s', 'Z'] then
        match templateParamParse tail with
        | .ok (param, tail) => (s, .ok (.SizeofTemplatePack param, tail))
        | .error _ =>
          match functionParamParse tail with
          | .error e => (s, .error e)
          | .ok (param, tail) =>
            (s, .ok (.SizeofFunctionPack param, tail))
      else if head.chars = ['s', 'P'] then
        match zeroOrMore targP fuel s tail with
        | (s, .error e) => (s, .error e)
        | (s, .ok (args, tail)) =>
          match consume ['E'] tail with
          | .error e => (s, .error e)
          | .ok tail =>
            (s, .ok (.SizeofCapturedTemplatePack args, tail))
      else if head.chars = ['s', 'p'] then
        match exprP s tail with
        | (s, .error e) => (s, .error e)
        | (s, .ok (expr, tail)) => (s, .ok (.PackExpansion expr, tail))
      else if head.chars = ['t', 'w'] then
        match exprP s tail with
        | (s, .error e) => (s, .error e)
        | (s, .ok (expr, tail)) => (s, .ok (.Throw expr, tail))
      else if head.chars = ['t', 'r'] then
        (s, .ok (.Rethrow, tail))
      else if head.chars = ['g', 's'] then
        canBeGlobal exprP typeP initP fuel true s tail
      else exprParseTail exprP typeP urnP epP initP fuel s input

end ExprParse

section QualifiedBranch

variable {TArg SN Dt Ex UT : Type}

/-- The qualified-type alternative of `TypeHandle::parse`
(src/ast.rs line 1825): run `CvQualifiers::parse`, and only when it
consumed at least one byte recurse into `TypeHandle::parse` (`recurse`),
wrap the result in `Type::Qualified` and insert it; when nothing was
consumed the alternative falls through (`none`) to the next one instead
of recursing on unchanged input. -/
def typeHandleQualifiedBranch
    (recurse : ParseFn (Store TArg SN Dt Ex UT) TypeHandle)
    (subs : Store TArg SN Dt Ex UT) (input : IndexStr) :
    Option (Store TArg SN Dt Ex UT × PResult (TypeHandle × IndexStr)) :=
  match cvQualifiersParse input with
  | .error _ => none
  | .ok (qualifiers, tail) =>
    if tail.len < input.len then
      some
        (match recurse subs tail with
         | (subs, .error e) => (subs, .error e)
         | (subs, .ok (ty, tail)) =>
           let (idx, subs) :=
             storeInsert subs (.TypeS (.Qualified qualifiers ty))
           (subs, .ok (.BackReference idx, tail)))
    else none

end QualifiedBranch

/-- Spec-shaped helper for stating claim C6: the qualifier keywords that
are set, in the fixed order `const`, `volatile`, `restrict`. -/
def cvKeywords (q : CvQualifiers) : List (List Char) :=
  (if q.const_ then [['c', 'o', 'n', 's', 't']] else []) ++
  (if q.volatile then [['v', 'o', 'l', 'a', 't', 'i', 'l', 'e']] else []) ++
  (if q.restrict then [['r', 'e', 's', 't', 'r', 'i', 'c', 't']] else [])

/-- Spec-shaped helper for stating claim C6: the keywords joined by
single spaces, with a single leading space unless the previous output
byte is already a space (and nothing at all when no qualifier is set). -/
def cvSpecRendering (q : CvQualifiers) (lastIsSpace : Bool) : List Char :=
  match cvKeywords q with
  | [] => []
  | kws =>
    (if lastIsSpace then [] else [' ']) ++ (kws.intersperse [' ']).flatten

/-- The two-letter tags handled directly by `Expression::parse`
(src/ast.rs lines 3137-3283), in source order; an input whose first two
bytes are none of these falls past the direct forms. -/
def exprDirectTags : List (List Char) :=
  [['c', 'l'], ['c', 'v'], ['t', 'l'], ['i', 'l'],
   ['d', 'c'], ['s', 'c'], ['c', 'c'], ['r', 'c'],
   ['t', 'i'], ['t', 'e'], ['s', 't'], ['s', 'z'],
   ['a', 't'], ['a', 'z'], ['n', 'x'], ['d', 't'],
   ['p', 't'], ['d', 's'], ['s', 'Z'], ['s', 'P'],
   ['s', 'p'], ['t', 'w'], ['t', 'r'], ['g', 's']]

/-- A sub-parser that always fails without touching the table; used to
instantiate parser parameters in concrete counterexample runs whose
input never reaches them. -/
def alwaysFailP {σ α : Type} : ParseFn σ α :=
  fun s _ => (s, .error .UnexpectedText)

/-- A child rendering that writes nothing and succeeds; used to
instantiate rendering parameters in concrete counterexample runs. -/
def trivialRender {γ : Type} : γ → Ctx → ArgStackM Unit → RResult :=
  fun _ ctx _ => .ok ctx

/-- The all-`Unit` instantiation of the store, for concrete runs. -/
abbrev UStore := Store Unit Unit Unit Unit Unit

/-- Concrete function encoding for the claim C1 counterexample: a
function whose name carries the one-element template argument list
`[()]` and whose bare function type is `(int; int)` — return type plus
one parameter, so the parameter list has an entry at index 0. -/
def cexC1Encoding : Encoding Unit Unit :=
  .Function (.UnscopedTemplate (.WellKnown .Std) [()])
    [.Builtin (.Standard .Int), .Builtin (.Standard .Int)]

/-- The `TypeHandle` rendering used in the claim C1 counterexample: it
renders a function-parameter reference `fp_` (scope 0, as produced by
`FunctionParam::parse` on `fp_`), the way a parameter type containing
such a reference would during a real rendering. -/
def cexC1ThDemangle : TypeHandle → Ctx → ArgStackM Unit → RResult :=
  fun _ ctx stack =>
    @functionParamDemangle Unit Unit Unit Unit
      (fun _ c _ => .ok c) ⟨0, CvQualifiers.default, none⟩ ctx stack

/-!
Theorems.  Helper lemmas come first, then one theorem (plus witness or
counterexample) per claim.
-/

/-- Char order in terms of code points. -/
theorem charLe_iff (a b : Char) : a ≤ b ↔ a.toNat ≤ b.toNat := by
  simp [Char.le_def, UInt32.le_def, BitVec.le_def, Char.toNat, UInt32.toNat]

theorem char_zero_toNat : ('0' : Char).toNat = 48 := rfl

theorem char_nine_toNat : ('9' : Char).toNat = 57 := rfl

/-- On base 10 the digit predicate of `parse_number` is exactly the
ASCII decimal digit test (uppercase letters all have value ≥ 10). -/
theorem numChar_ten (c : Char) : numChar 10 c = isDigit10 c := by
  unfold numChar digitVal
  cases h1 : isDigit10 c with
  | true =>
    have hlt : c.toNat - 48 < 10 := by
      simp only [isDigit10, Bool.and_eq_true, decide_eq_true_eq] at h1
      obtain ⟨ha, hb⟩ := h1
      rw [charLe_iff, char_zero_toNat] at ha
      rw [charLe_iff, char_nine_toNat] at hb
      omega
    simp [h1, hlt]
  | false =>
    cases h2 : isUpperAZ c with
    | true => simp [h1, h2]
    | false => simp [h1, h2]

/-- Unfolding `parse_number` when the negation marker does not fire:
the result is determined by the digit run at the front. -/
theorem parse_number_eq_run (base : Nat) (allow : Bool) (cs : List Char)
    (i : Nat) (hn : (allow && decide (cs.head? = some 'n')) = false)
    (hne : cs ≠ []) :
    parse_number base allow ⟨cs, i⟩ =
      (if (cs.takeWhile (numChar base)).length = 0 then
        .error .UnexpectedText
       else if 1 < (cs.takeWhile (numChar base)).length &&
           (cs.takeWhile (numChar base)).head? = some '0' then
        .error .UnexpectedText
       else if wordMax < digitsVal base (cs.takeWhile (numChar base)) then
        .error .Overflow
       else
        .ok ((digitsVal base (cs.takeWhile (numChar base)) : Int),
             ⟨cs.drop (cs.takeWhile (numChar base)).length,
              i + (cs.takeWhile (numChar base)).length⟩)) := by
  unfold parse_number
  simp only [IndexStr.peek] at hn ⊢
  simp [hne, hn, IndexStr.rangeFrom]

/-- Unfolding `parse_number` on a signed parse that starts with the
negation marker `n`. -/
theorem parse_number_signed_n (base : Nat) (cs : List Char) (i : Nat) :
    parse_number base true ⟨'n' :: cs, i⟩ =
      (if cs.isEmpty then .error .UnexpectedEnd
       else if (cs.takeWhile (numChar base)).length = 0 then
        .error .UnexpectedText
       else if 1 < (cs.takeWhile (numChar base)).length &&
           (cs.takeWhile (numChar base)).head? = some '0' then
        .error .UnexpectedText
       else if wordMax < digitsVal base (cs.takeWhile (numChar base)) then
        .error .Overflow
       else
        .ok (-(digitsVal base (cs.takeWhile (numChar base)) : Int),
             ⟨cs.drop (cs.takeWhile (numChar base)).length,
              i + 1 + (cs.takeWhile (numChar base)).length⟩)) := by
  unfold parse_number
  simp [IndexStr.peek, IndexStr.rangeFrom]

/-- Consuming a single matching byte. -/
theorem consume_one_ok (c : Char) (cs : List Char) (i : Nat) :
    consume [c] ⟨c :: cs, i⟩ = .ok ⟨cs, i + 1⟩ := by
  simp [consume, IndexStr.trySplitAt, IndexStr.splitAt, IndexStr.rangeFrom]

/-- Consuming a single byte fails when the head does not match (or the
input is empty). -/
theorem consume_one_err (c : Char) (input : IndexStr)
    (h : input.peek ≠ some c) : ∃ e, consume [c] input = .error e := by
  rcases input with ⟨cs, i⟩
  cases cs with
  | nil => exact ⟨.UnexpectedEnd, by simp [consume, IndexStr.trySplitAt]⟩
  | cons d cs =>
    have hd : d ≠ c := by
      intro hdc
      exact h (by simp [IndexStr.peek, hdc])
    exact ⟨.UnexpectedText,
      by simp [consume, IndexStr.trySplitAt, IndexStr.splitAt, hd]⟩

/-- A non-empty `takeWhile` run pins the head of the list. -/
theorem takeWhile_ne_nil_head {p : Char → Bool} {cs : List Char}
    (h : cs.takeWhile p ≠ []) :
    ∃ d cs2, cs = d :: cs2 ∧ p d = true := by
  cases cs with
  | nil => simp at h
  | cons d cs2 =>
    refine ⟨d, cs2, rfl, ?_⟩
    by_contra hp
    simp only [Bool.not_eq_true] at hp
    simp [List.takeWhile, hp] at h

/-- Claim C8: for the decimal number scanner (`Parse for Number`, i.e.
`parse_number(10, signed)`): an optional leading `n` marks negation; at
least one digit is required; a digit run longer than one digit that
starts with `0` (such as `"00"` or `"01"`) is rejected; and a digit run
whose value does not fit the machine signed word yields `Overflow`. -/
theorem claim_C8_parse_number :
    -- a leading n negates the value of the digit run that follows
    (∀ cs i, cs.takeWhile (numChar 10) ≠ [] →
      (1 < (cs.takeWhile (numChar 10)).length &&
        (cs.takeWhile (numChar 10)).head? = some '0') = false →
      digitsVal 10 (cs.takeWhile (numChar 10)) ≤ wordMax →
      numberParse ⟨'n' :: cs, i⟩ =
        .ok (-(digitsVal 10 (cs.takeWhile (numChar 10)) : Int),
             ⟨cs.drop (cs.takeWhile (numChar 10)).length,
              i + 1 + (cs.takeWhile (numChar 10)).length⟩)) ∧
    -- without n, the result is the digit run's value, unnegated
    (∀ cs i, cs.head? ≠ some 'n' → cs.takeWhile (numChar 10) ≠ [] →
      (1 < (cs.takeWhile (numChar 10)).length &&
        (cs.takeWhile (numChar 10)).head? = some '0') = false →
      digitsVal 10 (cs.takeWhile (numChar 10)) ≤ wordMax →
      numberParse ⟨cs, i⟩ =
        .ok ((digitsVal 10 (cs.takeWhile (numChar 10)) : Int),
             ⟨cs.drop (cs.takeWhile (numChar 10)).length,
              i + (cs.takeWhile (numChar 10)).length⟩)) ∧
    -- at least one digit is required, in all four shapes
    (∀ i, numberParse ⟨[], i⟩ = .error .UnexpectedEnd) ∧
    (∀ i, numberParse ⟨['n'], i⟩ = .error .UnexpectedEnd) ∧
    (∀ c cs i, c ≠ 'n' → isDigit10 c = false →
      numberParse ⟨c :: cs, i⟩ = .error .UnexpectedText) ∧
    (∀ c cs i, isDigit10 c = false →
      numberParse ⟨'n' :: c :: cs, i⟩ = .error .UnexpectedText) ∧
    -- a run of more than one digit starting with 0 is rejected
    (∀ c cs i, isDigit10 c = true →
      numberParse ⟨'0' :: c :: cs, i⟩ = .error .UnexpectedText) ∧
    -- a digit run that does not fit isize yields Overflow
    (∀ cs i, cs.head? ≠ some 'n' → cs.takeWhile (numChar 10) ≠ [] →
      (1 < (cs.takeWhile (numChar 10)).length &&
        (cs.takeWhile (numChar 10)).head? = some '0') = false →
      wordMax < digitsVal 10 (cs.takeWhile (numChar 10)) →
      numberParse ⟨cs, i⟩ = .error .Overflow) := by
  have hne_of_run : ∀ (cs : List Char), cs.takeWhile (numChar 10) ≠ [] →
      cs ≠ [] := by
    intro cs h hnil
    rw [hnil] at h
    simp at h
  refine ⟨?_, ?_, ?_, ?_, ?_, ?_, ?_, ?_⟩
  · intro cs i hds hlz hov
    rw [numberParse, parse_number_signed_n]
    have hcs : cs.isEmpty = false := by
      simp [List.isEmpty_iff]
      exact hne_of_run cs hds
    simp [hcs, hds, hlz, Nat.not_lt.mpr hov, List.length_eq_zero]
  · intro cs i hn hds hlz hov
    rw [numberParse, parse_number_eq_run 10 true cs i (by simp [hn])
      (hne_of_run cs hds)]
    simp [hds, hlz, Nat.not_lt.mpr hov, List.length_eq_zero]
  · intro i
    simp [numberParse, parse_number]
  · intro i
    rw [numberParse, parse_number_signed_n]
    simp
  · intro c cs i hcn hcd
    rw [numberParse, parse_number_eq_run 10 true (c :: cs) i
      (by simp [hcn]) (by simp)]
    simp [List.takeWhile, numChar_ten, hcd]
  · intro c cs i hcd
    rw [numberParse, parse_number_signed_n]
    simp [List.takeWhile, numChar_ten, hcd]
  · intro c cs i hcd
    rw [numberParse, parse_number_eq_run 10 true ('0' :: c :: cs) i
      (by simp) (by simp)]
    have h0 : numChar 10 '0' = true := by decide
    have hc : numChar 10 c = true := by rw [numChar_ten]; exact hcd
    simp [List.takeWhile, h0, hc]
  · intro cs i hn hds hlz hov
    rw [numberParse, parse_number_eq_run 10 true cs i (by simp [hn])
      (hne_of_run cs hds)]
    simp [hds, hlz, hov, List.length_eq_zero]

/-- Witness for claim C8 at concrete inputs (`n2n3`, `42`, empty, lone
`n`, `wutang`, `nw`, `001`, and a nineteen-nines overflow). -/
theorem claim_C8_witness :
    numberParse ⟨['n', '2', 'n', '3'], 0⟩ =
      .ok (-2, ⟨['n', '3'], 2⟩) ∧
    numberParse ⟨['4', '2'], 0⟩ = .ok (42, ⟨[], 2⟩) ∧
    numberParse ⟨[], 0⟩ = .error .UnexpectedEnd ∧
    numberParse ⟨['n'], 0⟩ = .error .UnexpectedEnd ∧
    numberParse ⟨['w', 'u', 't'], 0⟩ = .error .UnexpectedText ∧
    numberParse ⟨['n', 'w'], 0⟩ = .error .UnexpectedText ∧
    numberParse ⟨['0', '0', '1'], 0⟩ = .error .UnexpectedText ∧
    numberParse
      ⟨['9', '9', '9', '9', '9', '9', '9', '9', '9', '9', '9', '9', '9',
        '9', '9', '9', '9', '9', '9'], 0⟩ = .error .Overflow := by
  obtain ⟨h1, h2, h3, h4, h5, h6, h7, h8⟩ := claim_C8_parse_number
  refine ⟨?_, ?_, h3 0, h4 0, ?_, ?_, ?_, ?_⟩
  · exact (h1 ['2', 'n', '3'] 0 (by decide) (by decide)
      (by decide)).trans (by rfl)
  · exact (h2 ['4', '2'] 0 (by decide) (by decide) (by decide)
      (by decide)).trans (by rfl)
  · exact h5 'w' ['u', 't'] 0 (by decide) (by decide)
  · exact h6 'w' [] 0 (by decide)
  · exact h7 '0' ['1'] 0 (by decide)
  · exact h8 ['9', '9', '9', '9', '9', '9', '9', '9', '9', '9', '9', '9',
      '9', '9', '9', '9', '9', '9', '9'] 0 (by decide) (by decide)
      (by decide) (by decide)

/-- A successful one-byte `consume` pins the head and advances by one. -/
theorem consume_one_ok_inv {c : Char} {s t : IndexStr}
    (h : consume [c] s = .ok t) :
    s.peek = some c ∧ t = s.rangeFrom 1 := by
  rcases s with ⟨cs, i⟩
  cases cs with
  | nil => simp [consume, IndexStr.trySplitAt] at h
  | cons d cs2 =>
    by_cases hdc : d = c
    · subst hdc
      rw [consume_one_ok] at h
      exact ⟨rfl, by simpa [IndexStr.rangeFrom] using h.symm⟩
    · simp [consume, IndexStr.trySplitAt, IndexStr.splitAt, hdc] at h

/-- A failed one-byte `consume` means the head does not match. -/
theorem consume_one_err_inv {c : Char} {s : IndexStr} {e : Error}
    (h : consume [c] s = .error e) : s.peek ≠ some c := by
  rcases s with ⟨cs, i⟩
  cases cs with
  | nil => simp [IndexStr.peek]
  | cons d cs2 =>
    intro hpeek
    simp only [IndexStr.peek, List.head?, Option.some.injEq] at hpeek
    subst hpeek
    rw [consume_one_ok] at h
    exact Except.noConfusion h

/-- Master characterization of `CvQualifiers::parse`: it always
succeeds; the number of consumed bytes is the number of qualifier flags
set; each of `r`, `V`, `K` at the front sets the matching flag; and a
front byte that is none of them makes the whole parse a no-op. -/
theorem cvQualifiersParse_cases (input : IndexStr) :
    ∃ q tail, cvQualifiersParse input = .ok (q, tail) ∧
      tail.chars.length + ((if q.restrict then 1 else 0) +
        (if q.volatile then 1 else 0) + (if q.const_ then 1 else 0)) =
        input.chars.length ∧
      (input.peek = some 'r' → q.restrict = true) ∧
      (input.peek = some 'V' → q.volatile = true) ∧
      (input.peek = some 'K' → q.const_ = true) ∧
      (input.peek ≠ some 'r' → input.peek ≠ some 'V' →
        input.peek ≠ some 'K' → q = CvQualifiers.default ∧ tail = input) := by
  unfold cvQualifiersParse
  cases h1 : consume ['r'] input with
  | ok t1 =>
    obtain ⟨hp1, ht1⟩ := consume_one_ok_inv h1
    have hlen1 : t1.chars.length + 1 = input.chars.length := by
      rcases input with ⟨cs, i⟩
      cases cs with
      | nil => simp [IndexStr.peek] at hp1
      | cons d cs2 => simp [ht1, IndexStr.rangeFrom]
    cases h2 : consume ['V'] t1 with
    | ok t2 =>
      obtain ⟨hp2, ht2⟩ := consume_one_ok_inv h2
      have hlen2 : t2.chars.length + 1 = t1.chars.length := by
        rcases t1 with ⟨cs, i⟩
        cases cs with
        | nil => simp [IndexStr.peek] at hp2
        | cons d cs2 => simp [ht2, IndexStr.rangeFrom]
      cases h3 : consume ['K'] t2 with
      | ok t3 =>
        obtain ⟨hp3, ht3⟩ := consume_one_ok_inv h3
        have hlen3 : t3.chars.length + 1 = t2.chars.length := by
          rcases t2 with ⟨cs, i⟩
          cases cs with
          | nil => simp [IndexStr.peek] at hp3
          | cons d cs2 => simp [ht3, IndexStr.rangeFrom]
        refine ⟨⟨true, true, true⟩, t3, by simp [h1, h2, h3], by simp; omega,
          fun _ => rfl, fun _ => rfl, fun _ => rfl, fun hr _ _ => ?_⟩
        exact absurd hp1 hr
      | error e3 =>
        refine ⟨⟨true, true, false⟩, t2, by simp [h1, h2, h3], by simp; omega,
          fun _ => rfl, fun _ => rfl, ?_, fun hr _ _ => absurd hp1 hr⟩
        intro hK
        rw [hp1] at hK
        exact absurd (Option.some.inj hK) (by decide)
    | error e2 =>
      cases h3 : consume ['K'] t1 with
      | ok t3 =>
        obtain ⟨hp3, ht3⟩ := consume_one_ok_inv h3
        have hlen3 : t3.chars.length + 1 = t1.chars.length := by
          rcases t1 with ⟨cs, i⟩
          cases cs with
          | nil => simp [IndexStr.peek] at hp3
          | cons d cs2 => simp [ht3, IndexStr.rangeFrom]
        refine ⟨⟨true, false, true⟩, t3, by simp [h1, h2, h3], by simp; omega,
          fun _ => rfl, ?_, fun _ => rfl, fun hr _ _ => absurd hp1 hr⟩
        intro hV
        rw [hp1] at hV
        exact absurd (Option.some.inj hV) (by decide)
      | error e3 =>
        refine ⟨⟨true, false, false⟩, t1, by simp [h1, h2, h3], by simp; omega,
          fun _ => rfl, ?_, ?_, fun hr _ _ => absurd hp1 hr⟩
        · intro hV
          rw [hp1] at hV
          exact absurd (Option.some.inj hV) (by decide)
        · intro hK
          rw [hp1] at hK
          exact absurd (Option.some.inj hK) (by decide)
  | error e1 =>
    have hp1 := consume_one_err_inv h1
    cases h2 : consume ['V'] input with
    | ok t2 =>
      obtain ⟨hp2, ht2⟩ := consume_one_ok_inv h2
      have hlen2 : t2.chars.length + 1 = input.chars.length := by
        rcases input with ⟨cs, i⟩
        cases cs with
        | nil => simp [IndexStr.peek] at hp2
        | cons d cs2 => simp [ht2, IndexStr.rangeFrom]
      cases h3 : consume ['K'] t2 with
      | ok t3 =>
        obtain ⟨hp3, ht3⟩ := consume_one_ok_inv h3
        have hlen3 : t3.chars.length + 1 = t2.chars.length := by
          rcases t2 with ⟨cs, i⟩
          cases cs with
          | nil => simp [IndexStr.peek] at hp3
          | cons d cs2 => simp [ht3, IndexStr.rangeFrom]
        refine ⟨⟨false, true, true⟩, t3, by simp [h1, h2, h3], by simp; omega,
          ?_, fun _ => rfl, fun _ => rfl, fun _ hV _ => absurd hp2 hV⟩
        intro hr
        rw [hp2] at hr
        exact absurd (Option.some.inj hr) (by decide)
      | error e3 =>
        refine ⟨⟨false, true, false⟩, t2, by simp [h1, h2, h3], by simp; omega,
          ?_, fun _ => rfl, ?_, fun _ hV _ => absurd hp2 hV⟩
        · intro hr
          rw [hp2] at hr
          exact absurd (Option.some.inj hr) (by decide)
        · intro hK
          rw [hp2] at hK
          exact absurd (Option.some.inj hK) (by decide)
    | error e2 =>
      have hp2 := consume_one_err_inv h2
      cases h3 : consume ['K'] input with
      | ok t3 =>
        obtain ⟨hp3, ht3⟩ := consume_one_ok_inv h3
        have hlen3 : t3.chars.length + 1 = input.chars.length := by
          rcases input with ⟨cs, i⟩
          cases cs with
          | nil => simp [IndexStr.peek] at hp3
          | cons d cs2 => simp [ht3, IndexStr.rangeFrom]
        refine ⟨⟨false, false, true⟩, t3, by simp [h1, h2, h3], by simp; omega,
          ?_, ?_, fun _ => rfl, fun _ _ hK => absurd hp3 hK⟩
        · intro hr
          rw [hp3] at hr
          exact absurd (Option.some.inj hr) (by decide)
        · intro hV
          rw [hp3] at hV
          exact absurd (Option.some.inj hV) (by decide)
      | error e3 =>
        have hp3 := consume_one_err_inv h3
        exact ⟨⟨false, false, false⟩, input, by simp [h1, h2, h3],
          by simp,
          fun hr => absurd hr hp1, fun hV => absurd hV hp2,
          fun hK => absurd hK hp3, fun _ _ _ => ⟨rfl, rfl⟩⟩

/-- Claim C10: `CvQualifiers::parse` is total — it never returns an
error, and it leaves the cursor unchanged exactly when the front byte is
none of `r`, `V`, `K`; consequently the qualified-type alternative of
`TypeHandle::parse` recurses only after at least one byte has been
consumed, never on unchanged input. -/
theorem claim_C10_cv_total :
    (∀ input : IndexStr, ∃ q tail, cvQualifiersParse input = .ok (q, tail)) ∧
    (∀ input q tail, cvQualifiersParse input = .ok (q, tail) →
      (tail = input ↔
        (input.peek ≠ some 'r' ∧ input.peek ≠ some 'V' ∧
          input.peek ≠ some 'K'))) ∧
    (∀ {TArg SN Dt Ex UT : Type}
        (recurse : ParseFn (Store TArg SN Dt Ex UT) TypeHandle)
        (subs : Store TArg SN Dt Ex UT) (input : IndexStr) r,
      typeHandleQualifiedBranch recurse subs input = some r →
      ∃ q tail, cvQualifiersParse input = .ok (q, tail) ∧
        tail.len < input.len ∧
        r = (match recurse subs tail with
             | (subs, .error e) => (subs, .error e)
             | (subs, .ok (ty, tail)) =>
               let (idx, subs) :=
                 storeInsert subs (.TypeS (.Qualified q ty))
               (subs, .ok (.BackReference idx, tail)))) := by
  refine ⟨?_, ?_, ?_⟩
  · intro input
    obtain ⟨q, tail, h, -⟩ := cvQualifiersParse_cases input
    exact ⟨q, tail, h⟩
  · intro input q tail h
    obtain ⟨q2, tail2, h2, hlen, hr, hV, hK, hnop⟩ :=
      cvQualifiersParse_cases input
    rw [h] at h2
    obtain ⟨hq, htail⟩ : q = q2 ∧ tail = tail2 := by
      have := Except.ok.inj h2
      exact ⟨congrArg Prod.fst this, congrArg Prod.snd this⟩
    subst hq
    subst htail
    constructor
    · intro heq
      subst heq
      have hflags : (if q.restrict then 1 else 0) +
          (if q.volatile then 1 else 0) + (if q.const_ then 1 else 0) = 0 := by
        omega
      refine ⟨fun hpr => ?_, fun hpV => ?_, fun hpK => ?_⟩
      · have := hr hpr
        simp [this] at hflags
      · have := hV hpV
        simp [this] at hflags
      · have := hK hpK
        simp [this] at hflags
    · intro ⟨hpr, hpV, hpK⟩
      exact (hnop hpr hpV hpK).2
  · intro TArg SN Dt Ex UT recurse subs input r h
    unfold typeHandleQualifiedBranch at h
    cases hcv : cvQualifiersParse input with
    | error e => rw [hcv] at h; exact absurd h (by simp)
    | ok p =>
      rcases p with ⟨q, tail⟩
      rw [hcv] at h
      by_cases hlt : tail.len < input.len
      · refine ⟨q, tail, rfl, hlt, ?_⟩
        simp only [hlt, if_true] at h
        exact (Option.some.inj h).symm
      · simp only [hlt, if_false] at h
        exact absurd h (by simp)

/-- Witness for claim C10: `VKi` parses to volatile+const with the two
bytes consumed, `i` alone parses to no qualifiers with nothing
consumed, and the two facts of the consumption criterion at those
inputs. -/
theorem claim_C10_witness :
    (∃ q tail, cvQualifiersParse ⟨['V', 'K', 'i'], 0⟩ = .ok (q, tail)) ∧
    (cvQualifiersParse ⟨['i'], 0⟩ = .ok (CvQualifiers.default, ⟨['i'], 0⟩) →
      ((⟨['i'], 0⟩ : IndexStr) = ⟨['i'], 0⟩ ↔
        ((⟨['i'], 0⟩ : IndexStr).peek ≠ some 'r' ∧
          (⟨['i'], 0⟩ : IndexStr).peek ≠ some 'V' ∧
          (⟨['i'], 0⟩ : IndexStr).peek ≠ some 'K'))) := by
  exact ⟨claim_C10_cv_total.1 ⟨['V', 'K', 'i'], 0⟩,
    fun h => claim_C10_cv_total.2.1 ⟨['i'], 0⟩ CvQualifiers.default
      ⟨['i'], 0⟩ h⟩

/-- `WellKnownComponent::parse` fails on `S` followed by any byte that is
not one of the seven well-known second letters. -/
theorem wellKnownParse_fail_S (c : Char) (cs : List Char) (i : Nat)
    (h1 : c ≠ 't') (h2 : c ≠ 'a') (h3 : c ≠ 'b') (h4 : c ≠ 's')
    (h5 : c ≠ 'i') (h6 : c ≠ 'o') (h7 : c ≠ 'd') :
    wellKnownParse ⟨'S' :: c :: cs, i⟩ = .error .UnexpectedText := by
  simp [wellKnownParse, vocabParse, vocabParseGo, wellKnownVocab,
    IndexStr.trySplitAt, IndexStr.splitAt, IndexStr.isEmpty, IndexStr.len,
    h1, h2, h3, h4, h5, h6, h7]

/-- Claim C2: `Substitution::parse` on the `S <seq-id>? _` form yields
`BackReference(0)` when the seq-id is absent and
`BackReference(seq-id + 1)` when present (base-36 digits), and fails
with `BadBackReference` whenever the computed index is not already an
index of a stored entry.  The substitution store itself is
spec-modelled (`subs.rs` is outside `src/`). -/
theorem claim_C2_substitution_parse {TArg SN Dt Ex UT : Type}
    (subs : Store TArg SN Dt Ex UT) :
    -- absent seq-id: S_ means index 0
    (∀ cs i, substitutionParse subs ⟨'S' :: '_' :: cs, i⟩ =
      (if storeContains subs 0 then
        .ok (.BackReference 0, ⟨cs, i + 2⟩)
       else .error .BadBackReference)) ∧
    -- present seq-id: S <seq-id> _ means index seq-id + 1
    (∀ cs i rest,
      cs.takeWhile (numChar 36) ≠ [] →
      (1 < (cs.takeWhile (numChar 36)).length &&
        (cs.takeWhile (numChar 36)).head? = some '0') = false →
      digitsVal 36 (cs.takeWhile (numChar 36)) ≤ wordMax →
      cs.drop (cs.takeWhile (numChar 36)).length = '_' :: rest →
      substitutionParse subs ⟨'S' :: cs, i⟩ =
        (if storeContains subs
            (digitsVal 36 (cs.takeWhile (numChar 36)) + 1) then
          .ok (.BackReference
                (digitsVal 36 (cs.takeWhile (numChar 36)) + 1),
              ⟨rest, i + 1 + (cs.takeWhile (numChar 36)).length + 1⟩)
         else .error .BadBackReference)) := by
  constructor
  · intro cs i
    unfold substitutionParse
    have hwk := wellKnownParse_fail_S '_' cs i (by decide) (by decide)
      (by decide) (by decide) (by decide) (by decide) (by decide)
    have hcon : consume ['S'] ⟨'S' :: '_' :: cs, i⟩ =
        .ok ⟨'_' :: cs, i + 1⟩ := consume_one_ok 'S' ('_' :: cs) i
    have hseq : seqIdParse ⟨'_' :: cs, i + 1⟩ =
        .error .UnexpectedText := by
      unfold seqIdParse
      rw [parse_number_eq_run 36 false ('_' :: cs) (i + 1) (by simp)
        (by simp)]
      have hu : numChar 36 '_' = false := by decide
      simp [List.takeWhile, hu, Except.map]
    have hcon2 : consume ['_'] ⟨'_' :: cs, i + 1⟩ =
        .ok ⟨cs, i + 1 + 1⟩ := consume_one_ok '_' cs (i + 1)
    simp only [hwk, hcon, hseq, hcon2]
    by_cases hc : storeContains subs 0 <;> simp [hc]
  · intro cs i rest hds hlz hov hdrop
    obtain ⟨d, cs2, hcs, hd⟩ := takeWhile_ne_nil_head hds
    unfold substitutionParse
    have hwk : wellKnownParse ⟨'S' :: cs, i⟩ = .error .UnexpectedText := by
      rw [hcs]
      refine wellKnownParse_fail_S d cs2 i ?_ ?_ ?_ ?_ ?_ ?_ ?_ <;>
        (intro h; subst h; revert hd; decide)
    have hcon : consume ['S'] ⟨'S' :: cs, i⟩ = .ok ⟨cs, i + 1⟩ :=
      consume_one_ok 'S' cs i
    have hseq : seqIdParse ⟨cs, i + 1⟩ =
        .ok (digitsVal 36 (cs.takeWhile (numChar 36)),
             ⟨cs.drop (cs.takeWhile (numChar 36)).length,
              i + 1 + (cs.takeWhile (numChar 36)).length⟩) := by
      unfold seqIdParse
      rw [parse_number_eq_run 36 false cs (i + 1) (by simp)
        (by rw [hcs]; simp)]
      simp [hds, hlz, Nat.not_lt.mpr hov, List.length_eq_zero,
        Except.map, Int.toNat_natCast]
    have hcon2 : consume ['_']
        (⟨cs.drop (cs.takeWhile (numChar 36)).length,
          i + 1 + (cs.takeWhile (numChar 36)).length⟩ : IndexStr) =
        .ok ⟨rest, i + 1 + (cs.takeWhile (numChar 36)).length + 1⟩ := by
      rw [hdrop]
      exact consume_one_ok '_' rest _
    simp only [hwk, hcon, hseq, hcon2]
    by_cases hc : storeContains subs
        (digitsVal 36 (cs.takeWhile (numChar 36)) + 1) <;> simp [hc]

/-- Witness for claim C2: over a three-entry store, `S1_.` resolves to
back-reference index 2 with `.` left over; over an empty store, `S_`
and `S0_` both fail with `BadBackReference`. -/
theorem claim_C2_witness :
    substitutionParse
      ([.UnresolvedTypeS (), .UnresolvedTypeS (), .UnresolvedTypeS ()] :
        UStore) ⟨['S', '1', '_', '.'], 0⟩ =
      .ok (.BackReference 2, ⟨['.'], 3⟩) ∧
    substitutionParse ([] : UStore) ⟨['S', '_'], 0⟩ =
      .error .BadBackReference ∧
    substitutionParse ([] : UStore) ⟨['S', '0', '_'], 0⟩ =
      .error .BadBackReference := by
  refine ⟨?_, ?_, ?_⟩
  · exact ((claim_C2_substitution_parse _).2 ['1', '_', '.'] 0 ['.']
      (by decide) (by decide) (by decide) (by decide)).trans (by rfl)
  · exact ((claim_C2_substitution_parse _).1 [] 0).trans (by rfl)
  · exact ((claim_C2_substitution_parse _).2 ['0', '_'] 0 []
      (by decide) (by decide) (by decide) (by decide)).trans (by rfl)

/-- Claim C9: rendering an `ExprPrimary::Literal` whose type is not the
nullptr builtin emits the demangled form of the literal's type when the
remembered byte span is empty, and echoes exactly the remembered bytes
of the original input when the span is non-empty. -/
theorem claim_C9_empty_literal {TArg SN : Type}
    (mnDemangle : MangledName TArg SN → Ctx → ArgStackM TArg → RResult)
    (thDemangle : TypeHandle → Ctx → ArgStackM TArg → RResult)
    (th : TypeHandle) (start stop : Nat) (ctx : Ctx)
    (stack : ArgStackM TArg) (hnp : th ≠ nullptrHandle) :
    (exprPrimaryDemangle mnDemangle thDemangle (.Literal th start start)
      ctx stack = thDemangle th ctx stack) ∧
    (start ≠ stop →
      exprPrimaryDemangle mnDemangle thDemangle (.Literal th start stop)
        ctx stack =
        .ok (ctx.write ((ctx.input.take stop).drop start))) := by
  constructor
  · simp [exprPrimaryDemangle, hnp]
  · intro hne
    simp [exprPrimaryDemangle, hnp, hne]

/-- Witness for claim C9: an `int`-typed literal with empty span `3..3`
renders its type (here a rendering that writes `int`), and with span
`1..3` echoes bytes 1-2 of the input. -/
theorem claim_C9_witness :
    (@exprPrimaryDemangle Unit Unit trivialRender
      (fun _ ctx _ => .ok (ctx.write ['i', 'n', 't']))
      (.Literal (.Builtin (.Standard .Int)) 3 3)
      ⟨['_', '4', '2', 'E'], []⟩ [] =
      .ok ⟨['_', '4', '2', 'E'], ['i', 'n', 't']⟩) ∧
    (@exprPrimaryDemangle Unit Unit trivialRender
      (fun _ ctx _ => .ok (ctx.write ['i', 'n', 't']))
      (.Literal (.Builtin (.Standard .Int)) 1 3)
      ⟨['_', '4', '2', 'E'], []⟩ [] =
      .ok ⟨['_', '4', '2', 'E'], ['4', '2']⟩) := by
  have h := @claim_C9_empty_literal Unit Unit
    trivialRender (fun _ ctx _ => .ok (ctx.write ['i', 'n', 't']))
    (.Builtin (.Standard .Int)) 1 3 ⟨['_', '4', '2', 'E'], []⟩ []
    (by decide)
  have h2 := @claim_C9_empty_literal Unit Unit
    trivialRender (fun _ ctx _ => .ok (ctx.write ['i', 'n', 't']))
    (.Builtin (.Standard .Int)) 3 3 ⟨['_', '4', '2', 'E'], []⟩ []
    (by decide)
  exact ⟨h2.1.trans (by rfl), (h.2 (by decide)).trans (by rfl)⟩

/-- Counterexample to claim C4: the input `NStE` parses successfully as
a `<nested-name>`, yet its terminal prefix is the well-known component
handle `std` — not a Nested or Template prefix variant (the store stays
empty, so no Nested or Template component exists anywhere).  The
ending check of `NestedName::parse` is skipped entirely for non-back-
reference handles, and `nestedNameEndingOk` accepts the well-known
handle over the empty store. -/
theorem claim_C4_counterexample :
    @nestedNameParse Unit Unit Unit Unit Unit alwaysFailP alwaysFailP 8 [] ⟨['N', 'S', 't', 'E'], 0⟩ =
      ([], .ok (⟨CvQualifiers.default, none, .WellKnown .Std⟩, ⟨[], 4⟩)) ∧
    nestedNameEndingOk ([] : UStore) (.WellKnown .Std) = true := by
  exact ⟨rfl, rfl⟩

/-- Claim C4 (amended): a successful `<nested-name>` parse guarantees
only that the terminal prefix handle passes the ending check, and that
check constrains nothing but back-references — a back-reference must
point at a stored Nested or Template prefix component, while any
well-known component handle is accepted without inspection. -/
theorem claim_C4_amended :
    (∀ {TArg SN Dt Ex UT : Type}
        (pDt : ParseFn (StoreOf TArg SN Dt Ex UT) Dt)
        (pTA : ParseFn (StoreOf TArg SN Dt Ex UT) (List TArg))
        (fuel : Nat) (subs subs2 : StoreOf TArg SN Dt Ex UT)
        (input tail : IndexStr) (nn : NestedName),
      nestedNameParse pDt pTA fuel subs input = (subs2, .ok (nn, tail)) →
      nestedNameEndingOk subs2 nn.pfx = true) ∧
    (∀ {TArg SN Dt Ex UT : Type} (subs : StoreOf TArg SN Dt Ex UT)
        (idx : Nat),
      nestedNameEndingOk subs (.BackReference idx) = true ↔
        ((∃ ph un, subs.get? idx = some (.PrefixS (.Nested ph un))) ∨
         (∃ ph args, subs.get? idx = some (.PrefixS (.Template ph args))))) ∧
    (∀ {TArg SN Dt Ex UT : Type} (subs : StoreOf TArg SN Dt Ex UT)
        (wk : WellKnownComponent),
      nestedNameEndingOk subs (.WellKnown wk) = true) := by
  refine ⟨?_, ?_, ?_⟩
  · intro TArg SN Dt Ex UT pDt pTA fuel subs subs2 input tail nn h
    unfold nestedNameParse at h
    repeat' split at h
    any_goals exact Except.noConfusion (congrArg Prod.snd h)
    rename_i hcond x inp heqE
    injection h with h1 h2
    injection h2 with h3
    injection h3 with h4 h5
    subst h1
    subst h4
    simpa using hcond
  · intro TArg SN Dt Ex UT subs idx
    cases hget : subs[idx]? with
    | none => simp [nestedNameEndingOk, hget, List.get?_eq_getElem?]
    | some s =>
      cases s with
      | TypeS t => simp [nestedNameEndingOk, hget, List.get?_eq_getElem?]
      | PrefixS p =>
        cases p <;> simp [nestedNameEndingOk, hget, List.get?_eq_getElem?]
      | UnscopedTemplateNameS u =>
        simp [nestedNameEndingOk, hget, List.get?_eq_getElem?]
      | TemplateTemplateParamS t =>
        simp [nestedNameEndingOk, hget, List.get?_eq_getElem?]
      | UnresolvedTypeS u =>
        simp [nestedNameEndingOk, hget, List.get?_eq_getElem?]
  · intro TArg SN Dt Ex UT subs wk
    rfl

/-- Witness for the amended claim C4, at the `NStE` run: the parse
succeeds and the ending check indeed holds for its well-known terminal
prefix. -/
theorem claim_C4_amended_witness :
    nestedNameEndingOk ([] : UStore)
      ((⟨CvQualifiers.default, none,
          PfxHandle.WellKnown .Std⟩ : NestedName)).pfx = true := by
  exact claim_C4_amended.1 alwaysFailP alwaysFailP 8 [] []
    ⟨['N', 'S', 't', 'E'], 0⟩ ⟨[], 4⟩
    ⟨CvQualifiers.default, none, .WellKnown .Std⟩ rfl

/-- Counterexample to claim C1: a concrete `Encoding::Function` whose
name carries template args and whose bare-function-type parameter list
has an entry at index 0 (`cexC1Encoding`, the mangled shape of
`std<…>(int)` with return type `int`), rendered with a parameter type
that contains the function-param reference `fp_`.  The rendering fails
with `BadFunctionArgReference`: `Encoding::demangle` pushes only the
name's `TemplateArgs` resolver, and `TemplateArgs::get_function_arg`
refuses every lookup, so the reference never resolves. -/
theorem claim_C1_counterexample :
    encodingDemangle ([] : UStore)
      cexC1ThDemangle trivialRender (fun _ inner ctx st => inner ctx st)
      trivialRender cexC1Encoding ⟨[], []⟩ [] =
      .error .BadFunctionArgReference := by
  rfl

/-- Claim C1 (amended): no resolver answering function-parameter lookups
is ever installed — the only `ArgResolver` implementation pushed onto
the argument scope stack anywhere in the renderer is `TemplateArgs`,
whose `get_function_arg` always refuses — so a function-argument lookup
through any argument stack, and hence the rendering of any
function-param reference (`fp_` / `fL<n>p<m>_`), fails with
`BadFunctionArgReference`. -/
theorem claim_C1_amended :
    (∀ (TArg SN Dt Ex : Type) (stack : ArgStackM TArg) (idx : Nat),
      stackGetFunctionArg TArg SN Dt Ex stack idx =
        .error .BadFunctionArgReference) ∧
    (∀ (TArg SN Dt Ex : Type)
        (tyDemangle : TypeM TArg SN Dt Ex → Ctx → ArgStackM TArg → RResult)
        (fp : FunctionParam) (ctx : Ctx) (stack : ArgStackM TArg),
      functionParamDemangle tyDemangle fp ctx stack =
        .error .BadFunctionArgReference) := by
  have h1 : ∀ (TArg SN Dt Ex : Type) (stack : ArgStackM TArg) (idx : Nat),
      stackGetFunctionArg TArg SN Dt Ex stack idx =
        .error .BadFunctionArgReference := by
    intro TArg SN Dt Ex stack idx
    induction stack with
    | nil => rfl
    | cons item rest ih =>
      simp [stackGetFunctionArg, templateArgsGetFunctionArg, ih]
  refine ⟨h1, ?_⟩
  intro TArg SN Dt Ex tyDemangle fp ctx stack
  unfold functionParamDemangle
  rw [h1]

/-- Claim C3: when rendering an `Encoding::Function` whose name carries
template args, the first bare-function-type element is rendered first
(as the return type), a space follows it, and the argument list that
reaches the name is the elements from index 1 on; when the name carries
no template args, the first element is not rendered separately and the
argument list is the whole bare-function-type starting at index 0. -/
theorem claim_C3_return_type {TArg SN Dt Ex UT : Type}
    (subs : Store TArg SN Dt Ex UT)
    (thD : TypeHandle → Ctx → ArgStackM TArg → RResult)
    (nameD : Name TArg SN → Ctx → ArgStackM TArg → RResult)
    (nestedDWI :
      NestedName → (Ctx → ArgStackM TArg → RResult) → Ctx →
        ArgStackM TArg → RResult)
    (specialD : SN → Ctx → ArgStackM TArg → RResult)
    (name : Name TArg SN) (t0 : TypeHandle) (rest : List TypeHandle)
    (ctx : Ctx) (stack : ArgStackM TArg) :
    (∀ args, Name.get_template_args subs name = some args →
      encodingDemangle subs thD nameD nestedDWI specialD
        (.Function name (t0 :: rest)) ctx stack =
        (match thD t0 ctx (args :: stack) with
         | .error e => .error e
         | .ok ctx2 =>
           encodingFunctionTail thD nameD nestedDWI name rest
             (ctx2.write [' ']) (args :: stack))) ∧
    (Name.get_template_args subs name = none →
      encodingDemangle subs thD nameD nestedDWI specialD
        (.Function name (t0 :: rest)) ctx stack =
        encodingFunctionTail thD nameD nestedDWI name (t0 :: rest) ctx
          stack) := by
  constructor
  · intro args h
    unfold encodingDemangle
    simp only [h]
  · intro h
    unfold encodingDemangle
    simp only [h]

/-- Witness for claim C3: with a type rendering that writes `R`, the
template-args-carrying encoding renders `R ()` (return type, space,
lone-void argument list from element 1 on), while the plain encoding
over the same bare-function-type renders `(R, R)` (no return type, all
elements as arguments). -/
theorem claim_C3_witness :
    encodingDemangle ([] : UStore)
      (fun _ c _ => .ok (c.write ['R'])) trivialRender
      (fun _ inner ctx st => inner ctx st) trivialRender
      (.Function (.UnscopedTemplate (.WellKnown .Std) [()])
        [.Builtin (.Standard .Int), .Builtin (.Standard .Void)])
      ⟨[], []⟩ [] = .ok ⟨[], ['R', ' ', '(', ')']⟩ ∧
    encodingDemangle ([] : UStore)
      (fun _ c _ => .ok (c.write ['R'])) trivialRender
      (fun _ inner ctx st => inner ctx st) trivialRender
      (.Function (.Unscoped (.Unqualified (.Source ⟨⟨0, 1⟩⟩)))
        [.Builtin (.Standard .Int), .Builtin (.Standard .Void)])
      ⟨[], []⟩ [] = .ok ⟨[], ['(', 'R', ',', ' ', 'R', ')']⟩ := by
  constructor
  · exact ((claim_C3_return_type ([] : UStore)
      (fun _ c _ => .ok (c.write ['R'])) trivialRender
      (fun _ inner ctx st => inner ctx st) trivialRender
      (.UnscopedTemplate (.WellKnown .Std) [()])
      (.Builtin (.Standard .Int)) [.Builtin (.Standard .Void)]
      ⟨[], []⟩ []).1 [()] rfl).trans (by rfl)
  · exact ((claim_C3_return_type ([] : UStore)
      (fun _ c _ => .ok (c.write ['R'])) trivialRender
      (fun _ inner ctx st => inner ctx st) trivialRender
      (.Unscoped (.Unqualified (.Source ⟨⟨0, 1⟩⟩)))
      (.Builtin (.Standard .Int)) [.Builtin (.Standard .Void)]
      ⟨[], []⟩ []).2 rfl).trans (by rfl)

/-- Setting an already-false bit to false is a no-op. -/
theorem list_set_false_self (l : List Bool) (n : Nat)
    (h : l.getD n false = false) : l.set n false = l := by
  induction l generalizing n with
  | nil => rfl
  | cons b t ih =>
    cases n with
    | zero =>
      simp only [List.getD_cons_zero] at h
      simp [List.set, h]
    | succ m =>
      simp only [List.getD_cons_succ] at h
      simp [List.set, ih m h]

/-- Setting a false bit to true removes exactly one `false` from the
count. -/
theorem count_false_set_true (l : List Bool) (n : Nat) (hn : n < l.length)
    (h : l.getD n false = false) :
    (l.set n true).count false + 1 = l.count false := by
  induction l generalizing n with
  | nil => simp at hn
  | cons b t ih =>
    cases n with
    | zero =>
      simp only [List.getD_cons_zero] at h
      subst h
      simp [List.set, List.count_cons]
    | succ m =>
      simp only [List.getD_cons_succ] at h
      simp only [List.length_cons] at hn
      have := ih m (by omega) h
      simp [List.set, List.count_cons]
      omega

/-- Unfolding lemma: `demH` on fuel 0. -/
theorem demH_zero (store : MarkGuard.GStore) (marks : List Bool)
    (h : MarkGuard.GHandle) :
    MarkGuard.demH 0 store marks h = (marks, .outOfFuel) := by
  cases h <;> simp [MarkGuard.demH]

/-- Unfolding lemma: `demH` on a leaf handle. -/
theorem demH_leaf (fuel : Nat) (store : MarkGuard.GStore)
    (marks : List Bool) :
    MarkGuard.demH (fuel + 1) store marks .leaf = (marks, .ok) := by
  simp [MarkGuard.demH]

/-- Unfolding lemma: `demH` on a back-reference. -/
theorem demH_backRef (fuel : Nat) (store : MarkGuard.GStore)
    (marks : List Bool) (idx : Nat) :
    MarkGuard.demH (fuel + 1) store marks (.backRef idx) =
      (if marks.getD idx false then
        (marks, .errored .RecursiveDemangling)
       else
        let marks1 := marks.set idx true
        let p := MarkGuard.demEntry fuel store marks1 (store.getD idx [])
        (p.1.set idx false, p.2)) := by
  simp [MarkGuard.demH]

/-- Unfolding lemma: `demEntry` on the empty entry. -/
theorem demEntry_nil (fuel : Nat) (store : MarkGuard.GStore)
    (marks : List Bool) :
    MarkGuard.demEntry fuel store marks [] = (marks, .ok) := by
  simp [MarkGuard.demEntry]

/-- Unfolding lemma: `demEntry` on a non-empty entry. -/
theorem demEntry_cons (fuel : Nat) (store : MarkGuard.GStore)
    (marks : List Bool) (h : MarkGuard.GHandle)
    (rest : List MarkGuard.GHandle) :
    MarkGuard.demEntry fuel store marks (h :: rest) =
      (match MarkGuard.demH fuel store marks h with
       | (marks1, .ok) => MarkGuard.demEntry fuel store marks1 rest
       | (marks1, st) => (marks1, st)) := by
  simp [MarkGuard.demEntry]

/-- Both mark-guard functions leave the mark-bit set exactly as they
found it: a bit is set on entry and cleared again on exit, on success
and on error alike. -/
theorem markGuard_restores (fuel : Nat) (store : MarkGuard.GStore) :
    (∀ (marks : List Bool) (h : MarkGuard.GHandle),
      (MarkGuard.demH fuel store marks h).1 = marks) ∧
    (∀ (marks : List Bool) (hs : List MarkGuard.GHandle),
      (MarkGuard.demEntry fuel store marks hs).1 = marks) := by
  induction fuel with
  | zero =>
    constructor
    · intro marks h
      rw [demH_zero]
    · intro marks hs
      cases hs with
      | nil => rw [demEntry_nil]
      | cons h rest =>
        rw [demEntry_cons, demH_zero]
  | succ fuel ih =>
    have hH : ∀ (marks : List Bool) (h : MarkGuard.GHandle),
        (MarkGuard.demH (fuel + 1) store marks h).1 = marks := by
      intro marks h
      cases h with
      | leaf => rw [demH_leaf]
      | backRef idx =>
        rw [demH_backRef]
        by_cases hm : marks.getD idx false
        · rw [List.getD_eq_getElem?_getD] at hm
          simp [hm]
        · simp only [hm, Bool.false_eq_true, if_false]
          have hrest := ih.2 (marks.set idx true) (store.getD idx [])
          simp only [hrest, List.set_set]
          exact list_set_false_self marks idx (by simpa using hm)
    refine ⟨hH, ?_⟩
    intro marks hs
    induction hs generalizing marks with
    | nil => rw [demEntry_nil]
    | cons h rest ihl =>
      rw [demEntry_cons]
      cases hd : MarkGuard.demH (fuel + 1) store marks h with
      | mk m1 st =>
        have hm1 : m1 = marks := by
          have := hH marks h
          rw [hd] at this
          exact this
        cases st with
        | ok =>
          simp only []
          rw [hm1]
          exact ihl marks
        | errored e => simpa using hm1
        | outOfFuel => simpa using hm1

/-- Claim C5: during rendering a substitution-table entry is never
entered while its mark bit is set — entering a marked entry returns
`RecursiveDemangling` immediately (the cycle case), the bit is set on
entry and cleared on exit (the marks are restored by every call), and
with the guard in place the recursion cannot run forever: any fuel
beyond the number of unmarked bits is never exhausted, on any table
whose back-references are in bounds. -/
theorem claim_C5_mark_bits :
    -- entering a marked entry errors out with RecursiveDemangling
    (∀ (fuel : Nat) (store : MarkGuard.GStore) (marks : List Bool)
        (idx : Nat), marks.getD idx false = true →
      MarkGuard.demH (fuel + 1) store marks (.backRef idx) =
        (marks, .errored .RecursiveDemangling)) ∧
    -- the mark bits are restored on exit
    (∀ (fuel : Nat) (store : MarkGuard.GStore) (marks : List Bool)
        (h : MarkGuard.GHandle),
      (MarkGuard.demH fuel store marks h).1 = marks) ∧
    -- the guarded recursion terminates: fuel beyond the unmarked-bit
    -- count is never exhausted
    (∀ (fuel : Nat) (store : MarkGuard.GStore) (marks : List Bool)
        (h : MarkGuard.GHandle),
      (∀ entry ∈ store, ∀ idx, MarkGuard.GHandle.backRef idx ∈ entry →
        idx < store.length) →
      marks.length = store.length →
      (∀ idx, h = .backRef idx → idx < store.length) →
      marks.count false < fuel →
      (MarkGuard.demH fuel store marks h).2 ≠ .outOfFuel) := by
  refine ⟨?_, ?_, ?_⟩
  · intro fuel store marks idx hm
    rw [demH_backRef]
    rw [List.getD_eq_getElem?_getD] at hm
    simp [hm]
  · intro fuel store marks h
    exact (markGuard_restores fuel store).1 marks h
  · intro fuel
    induction fuel with
    | zero =>
      intro store marks h hv hlen hh hcount
      omega
    | succ fuel ih =>
      have hE : ∀ (store : MarkGuard.GStore)
          (hs : List MarkGuard.GHandle),
          (∀ entry ∈ store, ∀ idx,
            MarkGuard.GHandle.backRef idx ∈ entry →
            idx < store.length) →
          (∀ idx, MarkGuard.GHandle.backRef idx ∈ hs →
            idx < store.length) →
          ∀ (marks : List Bool), marks.length = store.length →
          marks.count false < fuel →
          (MarkGuard.demEntry fuel store marks hs).2 ≠ .outOfFuel := by
        intro store hs hv
        induction hs with
        | nil =>
          intro hhs marks hlen hcount
          rw [demEntry_nil]
          simp
        | cons h rest ihl =>
          intro hhs marks hlen hcount
          rw [demEntry_cons]
          cases hd : MarkGuard.demH fuel store marks h with
          | mk m1 st =>
            have hm1 : m1 = marks := by
              have := (markGuard_restores fuel store).1 marks h
              rw [hd] at this
              exact this
            have hnotfuel : st ≠ .outOfFuel := by
              have := ih store marks h hv hlen
                (fun idx hidx => hhs idx (by rw [hidx]; exact .head _))
                hcount
              rw [hd] at this
              exact this
            cases st with
            | ok =>
              simp only []
              subst hm1
              exact ihl (fun idx hidx => hhs idx (.tail _ hidx)) m1
                hlen hcount
            | errored e => simp
            | outOfFuel => exact absurd rfl hnotfuel
      intro store marks h hv hlen hh hcount
      cases h with
      | leaf =>
        rw [demH_leaf]
        simp
      | backRef idx =>
        rw [demH_backRef]
        by_cases hm : marks.getD idx false
        · rw [List.getD_eq_getElem?_getD] at hm
          simp [hm]
        · simp only [hm, Bool.false_eq_true, if_false]
          have hidx : idx < store.length := hh idx rfl
          have hcount1 : (marks.set idx true).count false < fuel := by
            have := count_false_set_true marks idx (by omega)
              (by simpa using hm)
            omega
          have hmem : store.getD idx [] ∈ store := by
            have hg : store.getD idx [] = store.get ⟨idx, hidx⟩ := by
              simp [List.getD_eq_getElem?_getD,
                List.getElem?_eq_getElem hidx]
            rw [hg]
            exact List.get_mem store idx hidx
          have hentry :=
            hE store (store.getD idx []) hv
              (fun j hj => hv (store.getD idx []) hmem j hj)
              (marks.set idx true) (by simpa using hlen) hcount1
          cases hd : MarkGuard.demEntry fuel store (marks.set idx true)
              (store.getD idx []) with
          | mk m2 st =>
            rw [hd] at hentry
            simpa using hentry

/-- Witness for claim C5, on the one-entry table whose entry references
itself: entering the marked entry yields `RecursiveDemangling`, marks
are restored by a run from the unmarked state, and one unit of spare
fuel is enough for that run. -/
theorem claim_C5_witness :
    MarkGuard.demH 2 [[.backRef 0]] [true] (.backRef 0) =
      ([true], .errored .RecursiveDemangling) ∧
    (MarkGuard.demH 2 [[.backRef 0]] [false] (.backRef 0)).1 = [false] ∧
    (MarkGuard.demH 2 [[.backRef 0]] [false] (.backRef 0)).2 ≠
      .outOfFuel := by
  refine ⟨?_, ?_, ?_⟩
  · exact claim_C5_mark_bits.1 1 [[.backRef 0]] [true] 0 (by decide)
  · exact claim_C5_mark_bits.2.1 2 [[.backRef 0]] [false] (.backRef 0)
  · exact claim_C5_mark_bits.2.2 2 [[.backRef 0]] [false] (.backRef 0)
      (by
        intro entry he idx hin
        simp at he
        subst he
        simp at hin
        subst hin
        simp)
      (by simp) (by intro idx hidx; simp at hidx; subst hidx; decide)
      (by decide)

/-- Writing the empty string is a no-op. -/
theorem Ctx.write_nil (c : Ctx) : c.write [] = c := by
  simp [Ctx.write]

/-- Composing two writes appends the two strings. -/
theorem Ctx.write_write (c : Ctx) (s t : List Char) :
    (c.write s).write t = c.write (s ++ t) := by
  simp [Ctx.write]

/-- The last byte after writing a non-empty string is that string's
last character. -/
theorem lastByte_write_cons (c : Ctx) (a : Char) (t : List Char) :
    (c.write (a :: t)).lastByte = (a :: t).getLast? :=
  List.getLast?_append_of_ne_nil _ (by simp)

/-- `CvQualifiers::demangle` appends exactly the spec-shaped qualifier
rendering: the set keywords in order, single-space separated, with a
leading space unless the output already ends in one. -/
theorem cvDemangle_spec (q : CvQualifiers) (ctx : Ctx) :
    cvDemangle q ctx =
      ctx.write (cvSpecRendering q (decide (ctx.lastByte = some ' '))) := by
  obtain ⟨r, v, k⟩ := q
  by_cases hsp : ctx.lastByte = some ' ' <;>
    cases r <;> cases v <;> cases k <;>
      simp +decide [cvDemangle, cvSpecRendering, cvKeywords, hsp,
        Ctx.ensureSpace, lastByte_write_cons, Ctx.write_write,
        Ctx.write_nil, List.intersperse]

/-- With a space just written, the spec-shaped rendering is the bare
space-interspersed keyword list. -/
theorem cvSpecRendering_true (q : CvQualifiers) :
    cvSpecRendering q true = ((cvKeywords q).intersperse [' ']).flatten := by
  unfold cvSpecRendering
  cases cvKeywords q <;> simp


/-- Claim C6: for every rendered qualified type the base type is
printed first, then the qualifiers in the fixed order `const`,
`volatile`, `restrict`, each preceded by exactly one space (a space is
written only when the previous output byte is not already one); and
when the qualified base resolves to a pointer the qualifiers are passed
down as the pointer's inner item instead of being appended. -/
theorem claim_C6_qualifiers :
    -- qualifier rendering: set keywords in fixed order, single-space
    -- separated, leading space only when the last byte is not a space
    (∀ (q : CvQualifiers) (ctx : Ctx),
      cvDemangle q ctx =
        ctx.write (cvSpecRendering q (decide (ctx.lastByte = some ' ')))) ∧
    -- pointer hoisting: the qualifiers become the pointer's inner item
    (∀ (TArg SN Dt Ex UT : Type)
        (typeDWI : TypeM TArg SN Dt Ex → Option CvQualifiers → RResult)
        (thD : RResult) (subs : Store TArg SN Dt Ex UT)
        (quals : CvQualifiers) (ty : TypeHandle) (h : TypeHandle),
      storeGetType subs ty = some (.PointerTo h) →
      qualifiedTypeArm typeDWI thD subs quals ty =
        typeDWI (.PointerTo h) (some quals)) ∧
    -- non-pointer base: base output, then the space-led keyword list
    (∀ (TArg SN Dt Ex UT : Type)
        (typeDWI : TypeM TArg SN Dt Ex → Option CvQualifiers → RResult)
        (thD : RResult) (subs : Store TArg SN Dt Ex UT)
        (quals : CvQualifiers) (ty : TypeHandle) (ctx : Ctx),
      (∀ h, storeGetType subs ty ≠ some (.PointerTo h)) →
      thD = .ok ctx →
      qualifiedTypeArm typeDWI thD subs quals ty =
        .ok (ctx.write
          ([' '] ++ ((cvKeywords quals).intersperse [' ']).flatten))) ∧
    -- a failing base rendering propagates its error
    (∀ (TArg SN Dt Ex UT : Type)
        (typeDWI : TypeM TArg SN Dt Ex → Option CvQualifiers → RResult)
        (thD : RResult) (subs : Store TArg SN Dt Ex UT)
        (quals : CvQualifiers) (ty : TypeHandle) (e : Error),
      (∀ h, storeGetType subs ty ≠ some (.PointerTo h)) →
      thD = .error e →
      qualifiedTypeArm typeDWI thD subs quals ty = .error e) := by
  refine ⟨cvDemangle_spec, ?_, ?_, ?_⟩
  · intro TArg SN Dt Ex UT typeDWI thD subs quals ty h hsg
    unfold qualifiedTypeArm
    rw [hsg]
  · intro TArg SN Dt Ex UT typeDWI thD subs quals ty ctx hne hth
    unfold qualifiedTypeArm
    subst hth
    have hw : cvDemangle quals (ctx.write [' ']) =
        ctx.write
          ([' '] ++ ((cvKeywords quals).intersperse [' ']).flatten) := by
      rw [cvDemangle_spec]
      have hlb : (ctx.write [' ']).lastByte = some ' ' :=
        lastByte_write_cons ctx ' ' []
      rw [hlb]
      simp [cvSpecRendering_true, Ctx.write_write]
    cases hsg : storeGetType subs ty with
    | none => simp [hw]
    | some t =>
      cases t
      case PointerTo h => exact absurd hsg (hne h)
      all_goals simp [hw]
  · intro TArg SN Dt Ex UT typeDWI thD subs quals ty e hne hth
    unfold qualifiedTypeArm
    subst hth
    cases hsg : storeGetType subs ty with
    | none => simp
    | some t =>
      cases t
      case PointerTo h => exact absurd hsg (hne h)
      all_goals simp

/-- Witness for claim C6: a store whose entry 0 is `int*` hoists the
qualifiers into the pointer rendering; an unresolvable handle renders
the base then `" const"`; an error from the base propagates. -/
theorem claim_C6_witness :
    (@qualifiedTypeArm Unit Unit Unit Unit Unit
        (fun _ _ => .ok ⟨[], ['P']⟩) (.ok ⟨[], ['B']⟩)
        [.TypeS (.PointerTo nullptrHandle)] ⟨false, false, true⟩
        (.BackReference 0) = .ok ⟨[], ['P']⟩) ∧
    (@qualifiedTypeArm Unit Unit Unit Unit Unit
        (fun _ _ => .ok ⟨[], ['P']⟩) (.ok ⟨[], ['B']⟩)
        ([] : UStore) ⟨false, false, true⟩ nullptrHandle =
      .ok ⟨[], ['B', ' ', 'c', 'o', 'n', 's', 't']⟩) ∧
    (@qualifiedTypeArm Unit Unit Unit Unit Unit
        (fun _ _ => .ok ⟨[], ['P']⟩) (.error .RecursiveDemangling)
        ([] : UStore) ⟨false, false, true⟩ nullptrHandle =
      .error .RecursiveDemangling) ∧
    cvDemangle ⟨false, true, true⟩ ⟨[], ['A']⟩ =
      ⟨[], ['A', ' ', 'c', 'o', 'n', 's', 't', ' ',
        'v', 'o', 'l', 'a', 't', 'i', 'l', 'e']⟩ := by
  refine ⟨?_, ?_, ?_, ?_⟩
  · exact claim_C6_qualifiers.2.1 Unit Unit Unit Unit Unit
      (fun _ _ => .ok ⟨[], ['P']⟩) (.ok ⟨[], ['B']⟩)
      [.TypeS (.PointerTo nullptrHandle)] ⟨false, false, true⟩
      (.BackReference 0) nullptrHandle rfl
  · exact (claim_C6_qualifiers.2.2.1 Unit Unit Unit Unit Unit
      (fun _ _ => .ok ⟨[], ['P']⟩) (.ok ⟨[], ['B']⟩)
      ([] : UStore) ⟨false, false, true⟩ nullptrHandle ⟨[], ['B']⟩
      (fun h hc => Option.noConfusion hc) rfl).trans (by rfl)
  · exact claim_C6_qualifiers.2.2.2 Unit Unit Unit Unit Unit
      (fun _ _ => .ok ⟨[], ['P']⟩) (.error .RecursiveDemangling)
      ([] : UStore) ⟨false, false, true⟩ nullptrHandle .RecursiveDemangling
      (fun h hc => Option.noConfusion hc) rfl
  · exact (claim_C6_qualifiers.1 ⟨false, true, true⟩ ⟨[], ['A']⟩).trans
      (by rfl)


/-- A parse step that returned an error never equals a success. -/
theorem not_ok_of_error {α : Type} {x : PResult α} {e : Error}
    (h : x = .error e) : ∀ t, x ≠ .ok t := by
  intro t ht
  rw [h] at ht
  exact Except.noConfusion ht

/-- Claim C7: the operator-name-driven expression forms run only after
every direct op-code form has failed, and then greedily: the operator
name and one sub-expression are required, a second and a third are each
consumed iff they parse, yielding `Ternary`, `Binary` or `Unary`
according to how many parsed. -/
theorem claim_C7_op_name_forms :
    -- order: with every direct form failing, the parse defers to the
    -- operator-name coda, with the store as the failed attempts left it
    (∀ (σ URN Init TArg EP : Type)
        (typeP : ParseFn σ TypeHandle) (urnP : ParseFn σ URN)
        (epP : ParseFn σ EP) (initP : ParseFn σ Init)
        (targP : ParseFn σ TArg) (fuel : Nat) (s s1 s2 s3 : σ)
        (input : IndexStr) (eg eu ee : Error),
      (∀ t, consume ['p', 'p', '_'] input ≠ .ok t) →
      (∀ t, consume ['m', 'm', '_'] input ≠ .ok t) →
      (∀ head tail, input.trySplitAt 2 = some (head, tail) →
        head.chars ∉ exprDirectTags) →
      canBeGlobal (exprParse typeP urnP epP initP targP fuel) typeP
          initP fuel false s input = (s1, .error eg) →
      (∀ t, templateParamParse input ≠ .ok t) →
      (∀ t, functionParamParse input ≠ .ok t) →
      urnP s1 input = (s2, .error eu) →
      epP s2 input = (s3, .error ee) →
      exprParse typeP urnP epP initP targP (fuel + 1) s input =
        exprParseOpName (exprParse typeP urnP epP initP targP fuel) s3
          input) ∧
    -- the operator name itself is required
    (∀ (σ URN Init TArg EP : Type)
        (exprP : ParseFn σ (Expr URN Init TArg EP)) (s : σ)
        (input : IndexStr) (e : Error),
      operatorNameParse input = .error e →
      exprParseOpName exprP s input = (s, .error e)) ∧
    -- the first sub-expression is required
    (∀ (σ URN Init TArg EP : Type)
        (exprP : ParseFn σ (Expr URN Init TArg EP)) (s s1 : σ)
        (input t0 : IndexStr) (op : OperatorName) (e : Error),
      operatorNameParse input = .ok (op, t0) →
      exprP s t0 = (s1, .error e) →
      exprParseOpName exprP s input = (s1, .error e)) ∧
    -- exactly one sub-expression parses: Unary
    (∀ (σ URN Init TArg EP : Type)
        (exprP : ParseFn σ (Expr URN Init TArg EP)) (s s1 s2 : σ)
        (input t0 t1 : IndexStr) (op : OperatorName)
        (e1 : Expr URN Init TArg EP) (err : Error),
      operatorNameParse input = .ok (op, t0) →
      exprP s t0 = (s1, .ok (e1, t1)) →
      exprP s1 t1 = (s2, .error err) →
      exprParseOpName exprP s input = (s2, .ok (.Unary op e1, t1))) ∧
    -- exactly two parse: Binary
    (∀ (σ URN Init TArg EP : Type)
        (exprP : ParseFn σ (Expr URN Init TArg EP)) (s s1 s2 s3 : σ)
        (input t0 t1 t2 : IndexStr) (op : OperatorName)
        (e1 e2 : Expr URN Init TArg EP) (err : Error),
      operatorNameParse input = .ok (op, t0) →
      exprP s t0 = (s1, .ok (e1, t1)) →
      exprP s1 t1 = (s2, .ok (e2, t2)) →
      exprP s2 t2 = (s3, .error err) →
      exprParseOpName exprP s input =
        (s3, .ok (.Binary op e1 e2, t2))) ∧
    -- three parse: Ternary
    (∀ (σ URN Init TArg EP : Type)
        (exprP : ParseFn σ (Expr URN Init TArg EP)) (s s1 s2 s3 : σ)
        (input t0 t1 t2 t3 : IndexStr) (op : OperatorName)
        (e1 e2 e3 : Expr URN Init TArg EP),
      operatorNameParse input = .ok (op, t0) →
      exprP s t0 = (s1, .ok (e1, t1)) →
      exprP s1 t1 = (s2, .ok (e2, t2)) →
      exprP s2 t2 = (s3, .ok (e3, t3)) →
      exprParseOpName exprP s input =
        (s3, .ok (.Ternary op e1 e2 e3, t3))) := by
  refine ⟨?_, ?_, ?_, ?_, ?_, ?_⟩
  · intro σ URN Init TArg EP typeP urnP epP initP targP fuel s s1 s2 s3
      input eg eu ee hpp hmm2 hhd hglob htp hfp hurn hep
    simp only [exprParse]
    cases hppc : consume ['p', 'p', '_'] input with
    | ok t => exact absurd hppc (hpp t)
    | error e1 =>
      simp only [hppc]
      cases hmmc : consume ['m', 'm', '_'] input with
      | ok t => exact absurd hmmc (hmm2 t)
      | error e2 =>
        simp only [hmmc]
        have htail :
            exprParseTail (exprParse typeP urnP epP initP targP fuel)
              typeP urnP epP initP fuel s input =
            exprParseOpName
              (exprParse typeP urnP epP initP targP fuel) s3 input := by
          unfold exprParseTail
          simp only [hglob]
          cases htpc : templateParamParse input with
          | ok t => exact absurd htpc (htp t)
          | error e3 =>
            simp only [htpc]
            cases hfpc : functionParamParse input with
            | ok t => exact absurd hfpc (hfp t)
            | error e4 =>
              simp only [hfpc, hurn, hep]
        cases hts : input.trySplitAt 2 with
        | none => simpa only [hts] using htail
        | some p =>
          obtain ⟨head, tail⟩ := p
          simp only [hts]
          have hne := hhd head tail hts
          simp only [exprDirectTags, List.mem_cons,
            List.not_mem_nil, or_false, not_or] at hne
          obtain ⟨h1, h2, h3, h4, h5, h6, h7, h8, h9, h10, h11, h12,
            h13, h14, h15, h16, h17, h18, h19, h20, h21, h22, h23,
            h24⟩ := hne
          rw [if_neg h1, if_neg h2, if_neg h3, if_neg h4, if_neg h5,
            if_neg h6, if_neg h7, if_neg h8, if_neg h9, if_neg h10,
            if_neg h11, if_neg h12, if_neg h13, if_neg h14, if_neg h15,
            if_neg h16, if_neg h17, if_neg h18, if_neg h19, if_neg h20,
            if_neg h21, if_neg h22, if_neg h23, if_neg h24]
          exact htail
  · intro σ URN Init TArg EP exprP s input e hop
    unfold exprParseOpName
    simp only [hop]
  · intro σ URN Init TArg EP exprP s s1 input t0 op e hop h1
    unfold exprParseOpName
    simp only [hop, h1]
  · intro σ URN Init TArg EP exprP s s1 s2 input t0 t1 op e1 err hop
      h1 h2
    unfold exprParseOpName
    simp only [hop, h1, h2]
  · intro σ URN Init TArg EP exprP s s1 s2 s3 input t0 t1 t2 op e1 e2
      err hop h1 h2 h3
    unfold exprParseOpName
    simp only [hop, h1, h2, h3]
  · intro σ URN Init TArg EP exprP s s1 s2 s3 input t0 t1 t2 t3 op e1
      e2 e3 hop h1 h2 h3
    unfold exprParseOpName
    simp only [hop, h1, h2, h3]


/-- Witness for claim C7, on the input `plfp_fp_` with failing
sub-parsers: every direct form fails, so the parse defers to the
operator-name coda, which greedily parses `pl` (`+`), two `fp_`
function-param sub-expressions, fails on the third, and yields the
`Binary` form. -/
theorem claim_C7_witness :
    exprParse (alwaysFailP : ParseFn Unit TypeHandle)
        (alwaysFailP : ParseFn Unit Unit)
        (alwaysFailP : ParseFn Unit Unit)
        (alwaysFailP : ParseFn Unit Unit)
        (alwaysFailP : ParseFn Unit Unit) (5 + 1) ()
        ⟨['p', 'l', 'f', 'p', '_', 'f', 'p', '_'], 0⟩ =
      exprParseOpName
        (exprParse alwaysFailP alwaysFailP alwaysFailP alwaysFailP
          alwaysFailP 5) ()
        ⟨['p', 'l', 'f', 'p', '_', 'f', 'p', '_'], 0⟩ ∧
    exprParseOpName
        (exprParse (alwaysFailP : ParseFn Unit TypeHandle)
          (alwaysFailP : ParseFn Unit Unit)
          (alwaysFailP : ParseFn Unit Unit)
          (alwaysFailP : ParseFn Unit Unit)
          (alwaysFailP : ParseFn Unit Unit) 5) ()
        ⟨['p', 'l', 'f', 'p', '_', 'f', 'p', '_'], 0⟩ =
      ((), .ok (.Binary .Add
        (.FunctionParam ⟨0, CvQualifiers.default, none⟩)
        (.FunctionParam ⟨0, CvQualifiers.default, none⟩), ⟨[], 8⟩)) := by
  constructor
  · exact claim_C7_op_name_forms.1 Unit Unit Unit Unit Unit
      alwaysFailP alwaysFailP alwaysFailP alwaysFailP alwaysFailP 5
      () () () () ⟨['p', 'l', 'f', 'p', '_', 'f', 'p', '_'], 0⟩
      .UnexpectedText .UnexpectedText .UnexpectedText
      (not_ok_of_error rfl) (not_ok_of_error rfl)
      (by
        intro head tail h
        rw [show (⟨['p', 'l', 'f', 'p', '_', 'f', 'p', '_'], 0⟩ :
            IndexStr).trySplitAt 2 =
          some (⟨['p', 'l'], 0⟩,
            ⟨['f', 'p', '_', 'f', 'p', '_'], 2⟩) from rfl] at h
        simp only [Option.some.injEq, Prod.mk.injEq] at h
        obtain ⟨hh, ht⟩ := h
        subst hh
        decide)
      rfl (not_ok_of_error rfl) (not_ok_of_error rfl) rfl rfl
  · exact claim_C7_op_name_forms.2.2.2.2.1 Unit Unit Unit Unit Unit
      (exprParse alwaysFailP alwaysFailP alwaysFailP alwaysFailP
        alwaysFailP 5)
      () () () ()
      ⟨['p', 'l', 'f', 'p', '_', 'f', 'p', '_'], 0⟩
      ⟨['f', 'p', '_', 'f', 'p', '_'], 2⟩ ⟨['f', 'p', '_'], 5⟩ ⟨[], 8⟩
      .Add (.FunctionParam ⟨0, CvQualifiers.default, none⟩)
      (.FunctionParam ⟨0, CvQualifiers.default, none⟩) .UnexpectedEnd
      rfl rfl rfl rfl


end CppDemangle
